import Mathlib

/- Shallow embedding of the generation pipeline of gencnis/interaction-clustering
   (src/generation: perturbations.py, slot_pools.py, templates.py,
   generate_dataset.py).

   Text is modelled as List Char; Python string literals appear as
   string-literal .data.  The Python random.Random object is modelled as an
   oracle: an infinite stream of natural numbers together with a cursor; each
   primitive draw consumes one stream value and maps it onto the outcome range
   of that draw (rng.choice and the index underlying rng.choices map the value
   onto a position in the population; the test rng.random() < 0.6 maps it onto
   a branch; rng.randint(0, 2**31 - 1) maps it onto that interval).  This keeps
   the support of every draw and the exact draw order of the source while
   abstracting the numeric distribution, which none of the proved statements
   depend on.  random.Random(seed) is a deterministic function of the seed,
   which the model reflects by deriving the oracle stream from the seed. -/

structure Rng where
  stream : ℕ → ℕ
  pos : ℕ

def Rng.next (r : Rng) : ℕ × Rng := (r.stream r.pos, ⟨r.stream, r.pos + 1⟩)

/-- Model of random.Random(seed): the oracle stream derived from the seed. -/
def mkRng (seed : ℕ) : Rng := ⟨fun i => seed + i, 0⟩

/-- Model of rng.choice on a population of the given size (also the index
produced by rng.choices): the next oracle value reduced to the population. -/
def choiceIdx (r : Rng) (len : ℕ) : ℕ × Rng :=
  let p := r.next
  (p.1 % len, p.2)

/-- Model of the branch test rng.random() < 0.6 in _inject_politeness: the
next oracle value decides the branch (both branches are reachable). -/
def randLt06 (r : Rng) : Bool × Rng :=
  let p := r.next
  (p.1 % 5 < 3, p.2)

/-- Model of rng.randint(0, 2**31 - 1). -/
def randint31 (r : Rng) : ℕ × Rng :=
  let p := r.next
  (p.1 % 2 ^ 31, p.2)

/- ---------------- string utilities ---------------- -/

/-- Python str.lower, restricted to the ASCII case mapping (all characters the
repository's code compares are ASCII). -/
def lowerStr (s : List Char) : List Char := s.map Char.toLower

/-- The regex word-character class [a-zA-Z0-9_]. -/
def isWordChar (c : Char) : Bool := c.isAlphanum || c == '_'

/-- Python str.endswith for a single character. -/
def endsWithCh (c : Char) (s : List Char) : Bool := s.getLast? == some c

/-- Python substring containment (pat in s). -/
def containsSeq (pat : List Char) : List Char → Bool
  | [] => pat.isEmpty
  | c :: rest => pat.isPrefixOf (c :: rest) || containsSeq pat rest

/-- Number of positions of s at which pat occurs (used to state duplication). -/
def countOccs (pat s : List Char) : ℕ :=
  (List.range (s.length + 1)).countP fun i => pat.isPrefixOf (s.drop i)

/-- Python str.rstrip with the given strip set. -/
def rstripSet (cs : List Char) (s : List Char) : List Char :=
  (s.reverse.dropWhile (fun c => cs.contains c)).reverse

/-- Case-insensitive list equality (both sides lowered). -/
def lowerEq (a b : List Char) : Bool := lowerStr a == lowerStr b

/-- Scanner for re.sub(r"\b<pat>\b", repl, s, flags=re.IGNORECASE) where pat is
a literal whose first and last characters are word characters (true of every
pattern in the source).  Replaces each non-overlapping, case-insensitive,
word-bounded occurrence left to right.  The fuel argument only bounds the
recursion; each step consumes at least one character, so s.length + 1 is
always sufficient. -/
def subWordCIAux (pat repl : List Char) : ℕ → Bool → List Char → List Char
  | 0, _, s => s
  | _ + 1, _, [] => []
  | fuel + 1, prevWord, c :: rest =>
    let m := pat.length
    let after := (c :: rest).drop m
    if !prevWord && lowerEq ((c :: rest).take m) pat &&
        (after.isEmpty || !isWordChar (after.headD ' ')) then
      repl ++ subWordCIAux pat repl fuel (isWordChar (pat.getLastD ' ')) after
    else
      c :: subWordCIAux pat repl fuel (isWordChar c) rest

def subWordCI (pat repl s : List Char) : List Char :=
  subWordCIAux pat repl (s.length + 1) false s

/- ---------------- perturbations.py : transforms ---------------- -/

/-- Embeds _lowercase_first_char. -/
def _lowercase_first_char (text : List Char) : List Char :=
  match text with
  | [] => []
  | c :: rest => c.toLower :: rest

/-- Embeds _add_extra_question_mark. -/
def _add_extra_question_mark (text : List Char) : List Char :=
  if endsWithCh '?' text then text ++ ['?']
  else if endsWithCh '.' text || endsWithCh '!' text then text.dropLast ++ ['?']
  else text ++ ['?']

/-- Embeds _add_ellipsis. -/
def _add_ellipsis (text : List Char) : List Char :=
  if "...".data.isSuffixOf text || "…".data.isSuffixOf text then text
  else text ++ "...".data

/-- Embeds _strip_end_punct. -/
def _strip_end_punct (text : List Char) : List Char :=
  rstripSet "?.!…".data text

def markersStart : List (List Char) :=
  ["Please".data, "Could you".data, "Can you".data, "Hey,".data]

def markersEnd : List (List Char) :=
  ["thanks".data, "thank you".data, "pls".data]

/-- Embeds _inject_politeness: rng.random() < 0.6 picks start or end position,
then rng.choice picks the marker; a duplicate marker is guarded against. -/
def _inject_politeness (text : List Char) (rng : Rng) : List Char × Rng :=
  let b := randLt06 rng
  if b.1 then
    let p := choiceIdx b.2 markersStart.length
    let m := markersStart.getD p.1 []
    if (lowerStr m).isPrefixOf (lowerStr text) then (text, p.2)
    else (m ++ ' ' :: text, p.2)
  else
    let p := choiceIdx b.2 markersEnd.length
    let m := markersEnd.getD p.1 []
    if m.isSuffixOf (lowerStr text) then (text, p.2)
    else (text ++ ' ' :: m, p.2)

def contextStarters : List (List Char) :=
  ["For a class,".data, "At work,".data, "In my project,".data,
   "Quick question,".data, "Context:".data]

/-- Embeds the source function _inject_context_prefix (the Lean identifier is
shortened; the registered perturbation name string is kept verbatim). -/
def _inject_context_start (text : List Char) (rng : Rng) : List Char × Rng :=
  let p := choiceIdx rng contextStarters.length
  let pr := contextStarters.getD p.1 []
  if contextStarters.any (fun q => q.isPrefixOf text) then (text, p.2)
  else (pr ++ ' ' :: text, p.2)

def hedges : List (List Char) :=
  ["I think".data, "maybe".data, "I'm not sure but".data,
   "not sure if this is right, but".data]

def hedgeGuards : List (List Char) :=
  ["i think".data, "maybe".data, "im not sure".data, "not sure".data]

/-- Embeds _inject_hedge. -/
def _inject_hedge (text : List Char) (rng : Rng) : List Char × Rng :=
  let p := choiceIdx rng hedges.length
  let h := hedges.getD p.1 []
  if hedgeGuards.any (fun q => q.isPrefixOf (lowerStr text)) then (text, p.2)
  else (h ++ ' ' :: text, p.2)

def synonymSwaps : List (List Char × List Char) :=
  [("explain".data, "describe".data), ("fix".data, "resolve".data),
   ("plan".data, "schedule".data), ("compute".data, "calculate".data),
   ("briefly".data, "quickly".data)]

/-- Embeds _synonym_swap. -/
def _synonym_swap (text : List Char) (rng : Rng) : List Char × Rng :=
  let p := choiceIdx rng synonymSwaps.length
  let sw := synonymSwaps.getD p.1 ([], [])
  (subWordCI sw.1 sw.2 text, p.2)

def typoSwaps : List (List Char × List Char) :=
  [("what's".data, "whats".data), ("please".data, "pls".data),
   ("can't".data, "cant".data), ("thanks".data, "thx".data),
   ("I don't know".data, "idk".data)]

/-- Embeds _minor_typo. -/
def _minor_typo (text : List Char) (rng : Rng) : List Char × Rng :=
  let p := choiceIdx rng typoSwaps.length
  let sw := typoSwaps.getD p.1 ([], [])
  (subWordCI sw.1 sw.2 text, p.2)

def constraintPhrases : List (List Char) :=
  ["briefly".data, "step by step".data, "no code".data, "with an example".data,
   "in 3 bullet points".data, "final answer only".data, "keep it short".data]

/-- Embeds _inject_constraint_phrase: draws a phrase, returns the text
unchanged when its lowering contains "keep it" or "final answer", otherwise
inserts the phrase before a trailing question mark or appends it in
parentheses. -/
def _inject_constraint_phrase (text : List Char) (rng : Rng) : List Char × Rng :=
  let p := choiceIdx rng constraintPhrases.length
  let ph := constraintPhrases.getD p.1 []
  let lower := lowerStr text
  if containsSeq "keep it".data lower || containsSeq "final answer".data lower then
    (text, p.2)
  else if endsWithCh '?' text then
    (text.dropLast ++ ", ".data ++ ph ++ ['?'], p.2)
  else
    (text ++ " (".data ++ ph ++ [')'], p.2)

/- ---------------- perturbations.py : registry and sampling ---------------- -/

inductive PKind where
  | lcFirst | extraQm | ellipsis | stripEnd | politeness | contextStart
  | hedge | synSwap | minorTypo | constraintPhrase
deriving DecidableEq

/-- One registry entry (name, function, uses_rng, weight); the function slot
is represented by its PKind tag, interpreted by applyEntry.  The weight field
records the source's float weight scaled by ten (the floats 1.0, 0.9, ... are
never used computationally under the oracle abstraction of rng.choices, so
only their identity matters here). -/
structure PEntry where
  name : List Char
  kind : PKind
  usesRng : Bool
  weight : ℕ
deriving DecidableEq

def PERTURBATIONS : List PEntry :=
  [⟨"lowercase_first_char".data, .lcFirst, false, 10⟩,
   ⟨"extra_question_mark".data, .extraQm, false, 9⟩,
   ⟨"ellipsis".data, .ellipsis, false, 6⟩,
   ⟨"strip_end_punct".data, .stripEnd, false, 4⟩,
   ⟨"inject_politeness".data, .politeness, true, 9⟩,
   ⟨"inject_context_prefix".data, .contextStart, true, 8⟩,
   ⟨"inject_hedge".data, .hedge, true, 7⟩,
   ⟨"synonym_swap".data, .synSwap, true, 9⟩,
   ⟨"minor_typo".data, .minorTypo, true, 7⟩,
   ⟨"inject_constraint_phrase".data, .constraintPhrase, true, 9⟩]

/-- Dispatch of one registry entry, mirroring the uses_rng branch of the
application loop (pure entries leave the random source untouched). -/
def applyEntry (e : PEntry) (text : List Char) (rng : Rng) : List Char × Rng :=
  match e.kind with
  | .lcFirst => (_lowercase_first_char text, rng)
  | .extraQm => (_add_extra_question_mark text, rng)
  | .ellipsis => (_add_ellipsis text, rng)
  | .stripEnd => (_strip_end_punct text, rng)
  | .politeness => _inject_politeness text rng
  | .contextStart => _inject_context_start text rng
  | .hedge => _inject_hedge text rng
  | .synSwap => _synonym_swap text rng
  | .minorTypo => _minor_typo text rng
  | .constraintPhrase => _inject_constraint_phrase text rng

/-- The entry produced by one draw of rng.choices(PERTURBATIONS, weights)[0]
when the oracle produced v: the oracle value mapped onto the registry.  The
weight vector passed by the source is always the full registry's, so the
population of every draw is the entire registry. -/
def registryPick (v : ℕ) : PEntry :=
  PERTURBATIONS.getD (v % PERTURBATIONS.length) ⟨[], .lcFirst, false, 0⟩

/-- The retry loop of sample_perturbations.  Each iteration draws one entry
from the full registry with the full weight vector (the draw population is
never reduced), skips the draw when its name is already chosen, otherwise
appends it, breaking early when all registry names are chosen.  The fuel
argument models the unbounded Python while loop: a run that would iterate
forever is mapped to none. -/
def sampleLoop : ℕ → Rng → List PEntry → ℤ → Option (List PEntry × Rng)
  | 0, _, _, _ => none
  | fuel + 1, rng, chosen, n =>
    if (chosen.length : ℤ) < n then
      if (registryPick rng.next.1).name ∈ chosen.map PEntry.name then
        sampleLoop fuel rng.next.2 chosen n
      else if (chosen ++ [registryPick rng.next.1]).length == PERTURBATIONS.length then
        some (chosen ++ [registryPick rng.next.1], rng.next.2)
      else sampleLoop fuel rng.next.2 (chosen ++ [registryPick rng.next.1]) n
    else some (chosen, rng)

/-- Embeds sample_perturbations(rng, n): n <= 0 short-circuits to the empty
selection, otherwise the weighted retry loop runs. -/
def sample_perturbations (fuel : ℕ) (rng : Rng) (n : ℤ) :
    Option (List PEntry × Rng) :=
  if n ≤ 0 then some ([], rng) else sampleLoop fuel rng [] n

/-- The application loop of apply_perturbations: entries transform the text
left to right, sharing the row random source, and every sampled name is logged
regardless of whether the transform changed the text. -/
def applyEntries : List PEntry → List Char → Rng →
    List Char × List (List Char) × Rng
  | [], out, rng => (out, [], rng)
  | e :: rest, out, rng =>
    let step := applyEntry e out rng
    let tail := applyEntries rest step.1 step.2
    (tail.1, e.name :: tail.2.1, tail.2.2)

/-- Embeds apply_perturbations(text, rng, n). -/
def apply_perturbations (fuel : ℕ) (text : List Char) (rng : Rng) (n : ℤ) :
    Option (List Char × List (List Char) × Rng) :=
  match sample_perturbations fuel rng n with
  | none => none
  | some (entries, rng') => some (applyEntries entries text rng')

/- ---------------- slot_pools.py ---------------- -/

/-- Embeds the SLOTS dictionary: an association list from slot name to its
candidate value pool, in source order. -/
def SLOTS : List (List Char × List (List Char)) :=
  [("concept".data,
    ["cosine similarity".data, "sentence embeddings".data, "overfitting".data,
     "cross-validation".data, "PCA".data, "transformers".data,
     "clustering".data, "gradient descent".data, "tokenization".data,
     "regularization".data]),
   ("phenomenon".data,
    ["overfitting".data, "vanishing gradients".data, "mode collapse".data,
     "data leakage".data, "covariate shift".data]),
   ("tool".data,
    ["Python".data, "PyTorch".data, "scikit-learn".data, "Docker".data,
     "Git".data, "Linux".data, "VS Code".data, "Jupyter".data]),
   ("task".data,
    ["create a virtual environment".data, "compute sentence embeddings".data,
     "save a dataframe to parquet".data, "run KMeans on embeddings".data,
     "normalize vectors".data, "load a CSV file".data,
     "tokenize a text dataset".data, "reduce dimensionality with PCA".data]),
   ("error".data,
    ["CUDA out of memory".data, "ModuleNotFoundError".data,
     "Permission denied".data, "container exits immediately".data,
     "segmentation fault".data, "invalid device ordinal".data,
     "connection refused".data, "SSL certificate verify failed".data]),
   ("action".data,
    ["train a model".data, "build a Docker image".data, "run pip install".data,
     "start a notebook".data, "load my dataset".data, "run my script".data,
     "connect to a server".data]),
   ("tone".data,
    ["formal".data, "friendly".data, "academic".data, "concise".data]),
   ("lang".data,
    ["English".data, "Spanish".data, "German".data, "French".data]),
   ("a".data,
    ["KMeans".data, "HDBSCAN".data, "Agglomerative clustering".data,
     "UMAP".data, "PCA".data]),
   ("b".data,
    ["HDBSCAN".data, "KMeans".data, "Agglomerative clustering".data,
     "PCA".data, "UMAP".data]),
   ("option".data,
    ["KMeans".data, "HDBSCAN".data, "PCA".data, "UMAP".data]),
   ("goal".data,
    ["clustering short text embeddings".data,
     "reducing dimensionality before clustering".data,
     "finding interaction patterns in user queries".data,
     "grouping similar user requests".data]),
   ("time_horizon".data,
    ["today".data, "this week".data, "next 2 weeks".data, "by Friday".data]),
   ("time_budget".data,
    ["30 minutes".data, "1 hour".data, "2 hours".data]),
   ("artifact".data,
    ["tagline".data, "short poem".data, "micro-story".data,
     "product name".data]),
   ("artifact_plural".data,
    ["taglines".data, "poems".data, "short stories".data,
     "product names".data]),
   ("style".data,
    ["funny".data, "serious".data, "minimalist".data, "dramatic".data]),
   ("topic".data,
    ["an AI study assistant".data, "clustering user messages".data,
     "loneliness in winter".data, "a productivity app".data,
     "learning faster".data, "debugging late at night".data]),
   ("expr".data,
    ["17 * 23".data, "1024 / 8".data, "sqrt(144)".data,
     "cosine similarity between (1,2) and (2,1)".data, "log2(1024)".data]),
   ("quantity".data,
    ["the number of errors".data, "the cosine similarity".data,
     "the mean and standard deviation".data, "the estimated runtime".data]),
   ("given".data,
    ["accuracy is 0.82 on 500 samples".data, "vectors are (1,2) and (2,1)".data,
     "I have 50k texts and 768-d embeddings".data, "k is 20 clusters".data]),
   ("runtime_cost".data,
    ["runtime".data, "memory usage".data, "compute cost".data]),
   ("setup".data,
    ["embedding 50k texts into 768-d vectors".data,
     "running KMeans with k=20 on 50k vectors".data,
     "computing pairwise distances for 10k texts".data]),
   ("constraint".data,
    ["one example".data, "3 bullet points".data, "no equations".data,
     "step by step".data, "no code".data, "with code".data,
     "final answer only".data, "keep it short".data]),
   ("k".data,
    ["2".data, "3".data, "5".data]),
   ("text_stub".data,
    ["I need to send an update to my team about the project status.".data,
     "The experiment results look inconsistent across different random seeds.".data,
     "We collected 2,400 short user messages and want to cluster them using embeddings.".data,
     "My laptop fan gets loud when I run Docker containers for too long.".data,
     "Please review the following paragraph for clarity and grammar.".data,
     "I tried to install the package but the build step failed unexpectedly.".data,
     "The meeting agenda includes milestones, risks, and next steps for the sprint.".data,
     "I am comparing KMeans and HDBSCAN for clustering sentence embeddings.".data,
     "This report needs to be shorter, more direct, and easier to scan quickly.".data,
     "I want to translate a short note to German for a colleague.".data,
     "The code runs locally but fails in the CI pipeline with a timeout.".data,
     "The user asked for a simple explanation without any equations.".data,
     "We need a checklist for running experiments reproducibly in two weeks.".data,
     "The model accuracy improved, but the validation loss is still unstable.".data,
     "I wrote a short message, but it sounds too informal for an email.".data,
     "The dataset contains short queries, commands, and questions from users.".data,
     "I want a brief summary of the key findings and the main limitation.".data,
     "The results section should include both quantitative metrics and examples.".data,
     "I am not sure whether to include more context in the user messages.".data,
     "The instructions say to keep it concise and avoid unnecessary details.".data])]

/-- Python dictionary lookup SLOTS[s] / membership s in SLOTS. -/
def lookupSlot (s : List Char) : Option (List (List Char)) :=
  (SLOTS.find? (fun p => p.1 == s)).map Prod.snd

/- ---------------- templates.py ---------------- -/

def INTENTS : List (List Char) :=
  ["information_seeking".data, "how_to".data, "troubleshooting".data,
   "summarization".data, "recommendation".data, "planning".data,
   "creative".data, "math".data]

def GENERATORS : List (List Char) :=
  ["direct".data, "polite".data, "contextual".data, "constraint_heavy".data,
   "noisy".data]

/-- Decimal rendering of a natural number, matching Python str(int) on the
non-negative integers the source passes.  The fuel only bounds the recursion
depth; n + 1 always suffices since n / 10 < n for n at least 10. -/
def natReprAux : ℕ → ℕ → List Char
  | 0, _ => []
  | fuel + 1, n =>
    if n < 10 then [Nat.digitChar n]
    else natReprAux fuel (n / 10) ++ [Nat.digitChar (n % 10)]

def natRepr (n : ℕ) : List Char := natReprAux (n + 1) n

/-- Reads a decimal rendering back (used to prove natRepr injective). -/
def parseNat (ds : List Char) : ℕ :=
  ds.foldl (fun a c => a * 10 + (c.toNat - 48)) 0

/-- The f-string payload f"{intent}||{generator}||{index}||{text}" of
stable_template_id, before UTF-8 encoding and hashing. -/
def payloadOf (intent generator : List Char) (index : ℕ) (text : List Char) :
    List Char :=
  intent ++ '|' :: '|' :: (generator ++ '|' :: '|' ::
    (natRepr index ++ '|' :: '|' :: text))

/-- Stand-in for hashlib.sha1(payload).hexdigest(): an external library
primitive, modelled as a concrete deterministic function onto 40 lowercase
hex characters.  Every statement proved below depends only on the digest
being a deterministic function of the payload with at least 8 output
characters, which holds of the real sha1 hexdigest as well. -/
def sha1hex (s : List Char) : List Char :=
  (List.range 40).map fun i =>
    Nat.digitChar ((s.foldl (fun a c => (a * 31 + c.toNat) % 1000003) 7 + i) % 16)

/-- Embeds stable_template_id: the constant prefix "tpl_" plus the first 8
digest characters of the payload. -/
def stable_template_id (intent generator : List Char) (index : ℕ)
    (text : List Char) : List Char :=
  "tpl_".data ++ (sha1hex (payloadOf intent generator index text)).take 8

/-- Embeds the TEMPLATES nested dictionary: intent to generator family to the
list of raw template strings. -/
def TEMPLATES : List (List Char × List (List Char × List (List Char))) :=
  [("information_seeking".data,
    [("direct".data, ["What is {concept}?".data]),
     ("polite".data, ["Could you explain {concept} in simple terms?".data]),
     ("contextual".data,
      ["In machine learning, why does {phenomenon} happen?".data]),
     ("constraint_heavy".data,
      ["Explain {concept} briefly, with {constraint}.".data]),
     ("noisy".data, ["whats {concept} and why it matters??".data])]),
   ("how_to".data,
    [("direct".data, ["How do I {task}?".data]),
     ("polite".data, ["Please show me how to {task}.".data]),
     ("contextual".data, ["I'm new to {tool}; how can I {task}?".data]),
     ("constraint_heavy".data, ["How do I {task}? Keep it {constraint}.".data]),
     ("noisy".data, ["how to {task} on {tool}??".data])]),
   ("troubleshooting".data,
    [("direct".data, ["Why am I getting {error}?".data]),
     ("polite".data, ["Can you help me fix this error: {error}".data]),
     ("contextual".data,
      ["When I {action}, I get {error}. What should I check?".data]),
     ("constraint_heavy".data,
      ["Debug this: {error}. Assume {constraint}.".data]),
     ("noisy".data, ["it keeps failing: {error} idk why 😭".data])]),
   ("summarization".data,
    [("direct".data, ["Summarize this: {text_stub}".data]),
     ("polite".data,
      ["Please rewrite this to sound {tone}: {text_stub}".data]),
     ("contextual".data, ["Translate this to {lang}: {text_stub}".data]),
     ("constraint_heavy".data,
      ["Condense this to {constraint}: {text_stub}".data]),
     ("noisy".data, ["make this nicer/shorter pls: {text_stub}".data])]),
   ("recommendation".data,
    [("direct".data, ["Which is better: {a} or {b}?".data]),
     ("polite".data, ["What would you recommend for {goal}?".data]),
     ("contextual".data, ["Given {constraint}, should I use {option}?".data]),
     ("constraint_heavy".data,
      ["Recommend {k} options for {goal}, {constraint}.".data]),
     ("noisy".data, ["pick for me: {a} vs {b}".data])]),
   ("planning".data,
    [("direct".data, ["Make a plan for {goal}.".data]),
     ("polite".data, ["Can you schedule {goal} over {time_horizon}?".data]),
     ("contextual".data, ["I have {time_budget} per day. Plan {goal}.".data]),
     ("constraint_heavy".data, ["Plan {goal} with {constraint}.".data]),
     ("noisy".data, ["need a quick plan for {goal} by {time_horizon}!!".data])]),
   ("creative".data,
    [("direct".data, ["Write a {artifact} about {topic}.".data]),
     ("polite".data,
      ["Could you generate {k} {artifact_plural} for {topic}?".data]),
     ("contextual".data, ["Create a {style} {artifact} for {topic}.".data]),
     ("constraint_heavy".data,
      ["Generate {artifact} with {constraint} about {topic}.".data]),
     ("noisy".data, ["gimme a {artifact} thats {style}".data])]),
   ("math".data,
    [("direct".data, ["Compute {expr}.".data]),
     ("polite".data, ["Can you calculate {quantity} if {given}?".data]),
     ("contextual".data, ["Estimate {runtime_cost} for {setup}.".data]),
     ("constraint_heavy".data, ["Calculate {quantity}. Show {constraint}.".data]),
     ("noisy".data, ["quick math: {expr}??".data])])]

/-- Python TEMPLATES[intent] lookup. -/
def lookupIntent (intent : List Char) :
    Option (List (List Char × List (List Char))) :=
  (TEMPLATES.find? (fun p => p.1 == intent)).map Prod.snd

/-- Python TEMPLATES[intent][gen] lookup. -/
def lookupTemplates (intent gen : List Char) : Option (List (List Char)) :=
  match lookupIntent intent with
  | none => none
  | some m => (m.find? (fun p => p.1 == gen)).map Prod.snd

/- ---------------- generate_dataset.py ---------------- -/

def LANG : List Char := "en".data

def SOURCE : List Char := "synthetic".data

def N_PER_GENERATOR : ℕ := 60

def N_PERTURB : ℕ := 3

def TRAIN_GENS : List (List Char) :=
  ["direct".data, "polite".data, "contextual".data]

def TEST_GENS : List (List Char) :=
  ["constraint_heavy".data, "noisy".data]

/-- Fuel given to the sampling retry loop inside row assembly.  The Python
loop is unbounded; the lemmas below show this bound is never reached for the
row oracles generate constructs, so the bounded model agrees with the source
on every run the source can perform. -/
def SAMPLE_FUEL : ℕ := 1000

/-- One match attempt of SLOT_PATTERN = \{([a-zA-Z0-9_]+)\} at a position
whose character was '{': given the characters after the '{', returns the
captured name and the remainder after the closing '}'. -/
def matchSlot (s : List Char) : Option (List Char × List Char) :=
  let name := s.takeWhile isWordChar
  if name.isEmpty then none
  else
    match s.drop name.length with
    | '}' :: rest => some (name, rest)
    | _ => none

def extractSlotsAux : ℕ → List Char → List (List Char)
  | 0, _ => []
  | _ + 1, [] => []
  | fuel + 1, c :: rest =>
    if c = '{' then
      match matchSlot rest with
      | some (name, rest') => name :: extractSlotsAux fuel rest'
      | none => extractSlotsAux fuel rest
    else extractSlotsAux fuel rest

/-- Embeds extract_slots, i.e. SLOT_PATTERN.findall(template): all slot names
in occurrence order, duplicates kept.  The fuel only bounds the recursion;
each step consumes at least one character. -/
def extract_slots (template : List Char) : List (List Char) :=
  extractSlotsAux (template.length + 1) template

/-- The KeyError message raised by fill_template for a missing slot. -/
def missingSlotMsg (s template : List Char) : List Char :=
  "Slot '".data ++ s ++ "' not found in SLOTS. Template: ".data ++ template

/-- The value-drawing loop of fill_template: one uniform draw per slot
occurrence, stored into the values dictionary (modelled as an association
list whose most recent binding is first, so a repeated name overwrites). -/
def fillValues (template : List Char) :
    List (List Char) → List (List Char × List Char) → Rng →
    Except (List Char) (List (List Char × List Char) × Rng)
  | [], values, rng => .ok (values, rng)
  | s :: rest, values, rng =>
    match lookupSlot s with
    | none => .error (missingSlotMsg s template)
    | some pool =>
      let p := choiceIdx rng pool.length
      fillValues template rest ((s, pool.getD p.1 []) :: values) p.2

/-- Scanner for template.format(**values).  The model is exact on the class
of templates accepted by formatOK below — templates in which every brace
belongs to a plain SLOT_PATTERN-shaped replacement field, which holds of
every template in the repository: there str.format performs plain keyword
substitution, replacing each field by the bound value and raising
KeyError(name) for a field without a binding, and the model does the same.
A '{' that does not open such a field (an unterminated field as in "Hi {",
a brace escape, a field carrying a conversion or a format spec) and a '}'
outside a field take str.format into its ValueError paths or its replacement
mini-language; the model maps every such template to an error, and no
statement below asserts an .ok result for a template outside the formatOK
class.  Fuel as in extractSlotsAux. -/
def formatAux (values : List (List Char × List Char)) :
    ℕ → List Char → Except (List Char) (List Char)
  | 0, _ => .ok []
  | _ + 1, [] => .ok []
  | fuel + 1, c :: rest =>
    if c = '{' then
      match matchSlot rest with
      | some (name, rest') =>
        match (values.find? (fun p => p.1 == name)).map Prod.snd with
        | none => .error ("KeyError: ".data ++ name)
        | some v =>
          match formatAux values fuel rest' with
          | .error e => .error e
          | .ok out => .ok (v ++ out)
      | none => .error "ValueError: unsupported replacement field in format string".data
    else if c = '}' then
      .error "ValueError: single brace encountered in format string".data
    else
      match formatAux values fuel rest with
      | .error e => .error e
      | .ok out => .ok (c :: out)

/-- The class of templates on which the formatAux model of str.format is
exact: every '{' opens a plain SLOT_PATTERN field and every '}' closes one.
On these templates str.format is plain keyword substitution with KeyError on
an unbound name, with no other error path; every repository template is in
the class (checked inside taxonomy_ok below). -/
def formatOKAux : ℕ → List Char → Bool
  | 0, _ => true
  | _ + 1, [] => true
  | fuel + 1, c :: rest =>
    if c = '{' then
      match matchSlot rest with
      | some (_, rest') => formatOKAux fuel rest'
      | none => false
    else if c = '}' then false
    else formatOKAux fuel rest

def formatOK (template : List Char) : Bool :=
  formatOKAux (template.length + 1) template

def formatTemplate (template : List Char)
    (values : List (List Char × List Char)) : Except (List Char) (List Char) :=
  formatAux values (template.length + 1) template

/-- Embeds fill_template(template, rng): extract the slot occurrences, draw a
value for each occurrence (raising KeyError with the offending template for a
name missing from SLOTS), then substitute with template.format(**values). -/
def fill_template (template : List Char) (rng : Rng) :
    Except (List Char) (List Char × Rng) :=
  match fillValues template (extract_slots template) [] rng with
  | .error e => .error e
  | .ok (values, rng') =>
    match formatTemplate template values with
    | .error e => .error e
    | .ok out => .ok (out, rng')

/-- Embeds generator_split, including its ValueError for a generator outside
both role sets. -/
def generator_split (generator_id : List Char) : Except (List Char) (List Char) :=
  if generator_id ∈ TRAIN_GENS then .ok "train_gen".data
  else if generator_id ∈ TEST_GENS then .ok "test_gen".data
  else .error ("Unknown generator_id for split: ".data ++ generator_id)

/-- Python {idx:04d}. -/
def pad4 (n : ℕ) : List Char :=
  List.replicate (4 - (natRepr n).length) '0' ++ natRepr n

/-- Embeds make_message_id. -/
def make_message_id (intent generator_id : List Char) (idx : ℕ) : List Char :=
  "msg_".data ++ intent ++ '_' :: (generator_id ++ '_' :: pad4 idx)

/-- Python ";".join. -/
def joinSemi : List (List Char) → List Char
  | [] => []
  | [x] => x
  | x :: xs => x ++ ';' :: joinSemi xs

/-- Python s.split(";"). -/
def splitSemi : List Char → List (List Char)
  | [] => [[]]
  | c :: rest =>
    if c = ';' then [] :: splitSemi rest
    else
      match splitSemi rest with
      | [] => [[c]]
      | h :: t => (c :: h) :: t

/-- The per-row count used by the post-assembly perturbation check:
0 if not s else len(s.split(";")). -/
def countSplit (s : List Char) : ℕ :=
  if s.isEmpty then 0 else (splitSemi s).length

/-- One row of the generated dataset, with the columns of the source. -/
structure Row where
  message_id : List Char
  text : List Char
  lang : List Char
  source : List Char
  intent_gold : List Char
  generator_id : List Char
  template_id : List Char
  seed : ℕ
  split : List Char
  length_chars : ℕ
  has_question_mark : Bool
  applied_perturbations : List Char
deriving DecidableEq

/-- The body of the replicate loop: build one row from its per-row seed.
Mirrors lines 164-186 of generate_dataset.py (the KeyError of fill_template
and the ValueError of generator_split propagate). -/
def rowFor (intent gen template tid : List Char) (j row_seed : ℕ) :
    Except (List Char) Row :=
  let rng := mkRng row_seed
  match fill_template template rng with
  | .error e => .error e
  | .ok (filled, rng₁) =>
    match apply_perturbations SAMPLE_FUEL filled rng₁ (N_PERTURB : ℤ) with
    | none => .error "perturbation sampling did not terminate".data
    | some (perturbed, applied, _) =>
      match generator_split gen with
      | .error e => .error e
      | .ok splitLabel =>
        .ok { message_id := make_message_id intent gen j
              text := perturbed
              lang := LANG
              source := SOURCE
              intent_gold := intent
              generator_id := gen
              template_id := tid
              seed := row_seed
              split := splitLabel
              length_chars := perturbed.length
              has_question_mark := perturbed.contains '?'
              applied_perturbations := joinSemi applied }

/-- The replicate loop for one (intent, generator) cell: draws one per-row
seed from the global source per replicate, in order. -/
def genRows (intent gen template tid : List Char) :
    List ℕ → Rng → Except (List Char) (List Row × Rng)
  | [], g => .ok ([], g)
  | j :: rest, g =>
    let d := randint31 g
    match rowFor intent gen template tid j d.1 with
    | .error e => .error e
    | .ok row =>
      match genRows intent gen template tid rest d.2 with
      | .error e => .error e
      | .ok (rows, g') => .ok (row :: rows, g')

/-- The generator-family loop under one intent, including the KeyError for a
generator missing under the intent and the ValueError for an empty template
list; the first template of the family is used, as in the source. -/
def cellLoop (intent : List Char) :
    List (List Char) → Rng → Except (List Char) (List Row × Rng)
  | [], g => .ok ([], g)
  | gen :: rest, g =>
    match lookupTemplates intent gen with
    | none => .error ("Missing generator '".data ++ gen ++ "' under intent '".data
        ++ intent ++ "'".data)
    | some [] => .error ("No templates for intent='".data ++ intent
        ++ "', gen='".data ++ gen ++ "'".data)
    | some (template :: _) =>
      let tid := stable_template_id intent gen 0 template
      match genRows intent gen template tid (List.range N_PER_GENERATOR) g with
      | .error e => .error e
      | .ok (rows, g') =>
        match cellLoop intent rest g' with
        | .error e => .error e
        | .ok (rows', g'') => .ok (rows ++ rows', g'')

/-- The intent loop, including the KeyError for an intent missing from
TEMPLATES. -/
def intentLoop : List (List Char) → Rng → Except (List Char) (List Row × Rng)
  | [], g => .ok ([], g)
  | intent :: rest, g =>
    match lookupIntent intent with
    | none => .error ("Missing intent in TEMPLATES: ".data ++ intent)
    | some _ =>
      match cellLoop intent GENERATORS g with
      | .error e => .error e
      | .ok (rows, g') =>
        match intentLoop rest g' with
        | .error e => .error e
        | .ok (rows', g'') => .ok (rows ++ rows', g'')

/-- The Bool row predicate of the balance check for one (intent, generator)
pair. -/
def pairPred (i g : List Char) (r : Row) : Bool :=
  r.intent_gold == i && r.generator_id == g

/-- Embeds generate(seed): the nested iteration followed by the three
fail-fast sanity checks; a dataset is returned only when all checks pass. -/
def generate (seed : ℕ) : Except (List Char) (List Row) :=
  match intentLoop INTENTS (mkRng seed) with
  | .error e => .error e
  | .ok (rows, _) =>
    if rows.length ≠ INTENTS.length * GENERATORS.length * N_PER_GENERATOR then
      .error "Row count mismatch".data
    else if ((rows.map fun r => (r.intent_gold, r.generator_id)).dedup.any
        fun p => rows.countP (pairPred p.1 p.2) != N_PER_GENERATOR) then
      .error "Unbalanced groups".data
    else if !(rows.all fun r => countSplit r.applied_perturbations == N_PERTURB) then
      .error "Perturbation count mismatch in some rows".data
    else .ok rows

/- ---------------- lemmas about the registry and sampling ---------------- -/

lemma PERTURBATIONS_length : PERTURBATIONS.length = 10 := rfl

lemma registryPick_mod (v : ℕ) : registryPick v = registryPick (v % 10) := by
  have h : v % 10 % 10 = v % 10 := Nat.mod_eq_of_lt (Nat.mod_lt _ (by omega))
  simp [registryPick, PERTURBATIONS_length, h]

lemma registryPick_mem (v : ℕ) : registryPick v ∈ PERTURBATIONS := by
  rw [registryPick_mod]
  have h : v % 10 < 10 := Nat.mod_lt _ (by omega)
  have key : ∀ a : Fin 10, registryPick a.1 ∈ PERTURBATIONS := by decide
  exact key ⟨v % 10, h⟩

lemma registryPick_name_inj {v w : ℕ}
    (h : (registryPick v).name = (registryPick w).name) : v % 10 = w % 10 := by
  have hv : v % 10 < 10 := Nat.mod_lt _ (by omega)
  have hw : w % 10 < 10 := Nat.mod_lt _ (by omega)
  have key : ∀ a b : Fin 10,
      (registryPick a.1).name = (registryPick b.1).name → a = b := by decide
  have h2 := key ⟨v % 10, hv⟩ ⟨w % 10, hw⟩
    (by rw [← registryPick_mod, ← registryPick_mod]; exact h)
  exact congrArg Fin.val h2

lemma registry_name_unique : ∀ a ∈ PERTURBATIONS, ∀ b ∈ PERTURBATIONS,
    a.name = b.name → a = b := by decide

lemma entries_length_le (l : List PEntry)
    (hnd : (l.map PEntry.name).Nodup) (hsub : ∀ e ∈ l, e ∈ PERTURBATIONS) :
    l.length ≤ 10 := by
  have h2 : (l.map PEntry.name).toFinset ⊆
      (PERTURBATIONS.map PEntry.name).toFinset := by
    intro x hx
    rw [List.mem_toFinset] at hx ⊢
    obtain ⟨e, he, rfl⟩ := List.mem_map.1 hx
    exact List.mem_map_of_mem _ (hsub e he)
  have h1 : (l.map PEntry.name).toFinset.card = l.length := by
    rw [List.toFinset_card_of_nodup hnd, List.length_map]
  have h3 := Finset.card_le_card h2
  have h4 : (PERTURBATIONS.map PEntry.name).toFinset.card ≤ 10 :=
    le_trans (@List.toFinset_card_le _ _ (PERTURBATIONS.map PEntry.name))
      (by decide)
  omega

lemma entries_cover (l : List PEntry)
    (hnd : (l.map PEntry.name).Nodup) (hsub : ∀ e ∈ l, e ∈ PERTURBATIONS)
    (hlen : l.length = 10) : ∀ e ∈ PERTURBATIONS, e ∈ l := by
  intro e he
  have h2 : (l.map PEntry.name).toFinset ⊆
      (PERTURBATIONS.map PEntry.name).toFinset := by
    intro x hx
    rw [List.mem_toFinset] at hx ⊢
    obtain ⟨a, ha, rfl⟩ := List.mem_map.1 hx
    exact List.mem_map_of_mem _ (hsub a ha)
  have h1 : (l.map PEntry.name).toFinset.card = 10 := by
    rw [List.toFinset_card_of_nodup hnd, List.length_map, hlen]
  have hcard : ((PERTURBATIONS.map PEntry.name).toFinset).card ≤
      (l.map PEntry.name).toFinset.card := by
    rw [h1]
    exact le_trans (@List.toFinset_card_le _ _ (PERTURBATIONS.map PEntry.name))
      (by decide)
  have heq := Finset.eq_of_subset_of_card_le h2 hcard
  have hmem : e.name ∈ (l.map PEntry.name).toFinset := by
    rw [heq, List.mem_toFinset]
    exact List.mem_map_of_mem _ he
  rw [List.mem_toFinset] at hmem
  obtain ⟨a, ha, hname⟩ := List.mem_map.1 hmem
  have := registry_name_unique a (hsub a ha) e he hname
  exact this ▸ ha

lemma sampleLoop_some : ∀ (fuel : ℕ) (rng : Rng) (chosen : List PEntry) (n : ℤ)
    (res : List PEntry) (rng' : Rng),
    sampleLoop fuel rng chosen n = some (res, rng') →
    (chosen.map PEntry.name).Nodup →
    (∀ e ∈ chosen, e ∈ PERTURBATIONS) →
    (chosen.length : ℤ) ≤ min n 10 →
    (res.map PEntry.name).Nodup ∧ (∀ e ∈ res, e ∈ PERTURBATIONS) ∧
      (res.length : ℤ) = min n 10 := by
  intro fuel
  induction fuel with
  | zero =>
    intro rng chosen n res rng' h
    simp [sampleLoop] at h
  | succ fuel ih =>
    intro rng chosen n res rng' h hnd hsub hlen
    rw [sampleLoop] at h
    by_cases hc : (chosen.length : ℤ) < n
    · rw [if_pos hc] at h
      by_cases hdup : (registryPick rng.next.1).name ∈ chosen.map PEntry.name
      · rw [if_pos hdup] at h
        exact ih _ _ _ _ _ h hnd hsub hlen
      · rw [if_neg hdup] at h
        have hnd' : ((chosen ++ [registryPick rng.next.1]).map PEntry.name).Nodup := by
          rw [List.map_append]
          refine List.Nodup.append hnd (by simp) ?_
          intro x hx hy
          simp only [List.map_cons, List.map_nil, List.mem_singleton] at hy
          exact hdup (hy ▸ hx)
        have hsub' : ∀ e ∈ chosen ++ [registryPick rng.next.1], e ∈ PERTURBATIONS := by
          intro e he
          rcases List.mem_append.1 he with h1 | h1
          · exact hsub e h1
          · rw [List.mem_singleton] at h1
            exact h1 ▸ registryPick_mem _
        have hle10 : (chosen ++ [registryPick rng.next.1]).length ≤ 10 :=
          entries_length_le _ hnd' hsub'
        by_cases hfull : (chosen ++ [registryPick rng.next.1]).length = PERTURBATIONS.length
        · rw [if_pos (by simpa using hfull)] at h
          simp only [Option.some.injEq, Prod.mk.injEq] at h
          obtain ⟨rfl, rfl⟩ := h
          refine ⟨hnd', hsub', ?_⟩
          rw [PERTURBATIONS_length] at hfull
          simp only [List.length_append, List.length_cons, List.length_nil] at hfull ⊢
          push_cast
          omega
        · rw [if_neg (by simpa using hfull)] at h
          refine ih _ _ _ _ _ h hnd' hsub' ?_
          rw [PERTURBATIONS_length] at hfull
          simp only [List.length_append, List.length_cons, List.length_nil] at hfull hle10 ⊢
          omega
    · rw [if_neg hc] at h
      simp only [Option.some.injEq, Prod.mk.injEq] at h
      obtain ⟨rfl, rfl⟩ := h
      refine ⟨hnd, hsub, ?_⟩
      omega

lemma registryPick_name_ne {v w : ℕ} (h : v % 10 ≠ w % 10) :
    (registryPick v).name ≠ (registryPick w).name :=
  fun he => h (registryPick_name_inj he)

lemma sampleLoop_step_new (fuel : ℕ) (rng : Rng) (chosen : List PEntry) (n : ℤ)
    (hc : (chosen.length : ℤ) < n)
    (hnew : (registryPick rng.next.1).name ∉ chosen.map PEntry.name)
    (hfull : (chosen ++ [registryPick rng.next.1]).length ≠ PERTURBATIONS.length) :
    sampleLoop (fuel + 1) rng chosen n =
      sampleLoop fuel rng.next.2 (chosen ++ [registryPick rng.next.1]) n := by
  rw [sampleLoop, if_pos hc, if_neg hnew, if_neg (by simpa using hfull)]

lemma sampleLoop_stop (fuel : ℕ) (rng : Rng) (chosen : List PEntry) (n : ℤ)
    (hc : ¬ (chosen.length : ℤ) < n) :
    sampleLoop (fuel + 1) rng chosen n = some (chosen, rng) := by
  rw [sampleLoop, if_neg hc]

lemma sampleLoop_linear3 (c p f : ℕ) :
    sampleLoop (f + 4) ⟨fun i => c + i, p⟩ [] 3 =
      some ([registryPick (c + p), registryPick (c + p + 1), registryPick (c + p + 2)],
            ⟨fun i => c + i, p + 3⟩) := by
  have s1 : sampleLoop (f + 4) ⟨fun i => c + i, p⟩ [] 3 =
      sampleLoop (f + 3) ⟨fun i => c + i, p + 1⟩ [registryPick (c + p)] 3 := by
    have h := sampleLoop_step_new (f + 3) ⟨fun i => c + i, p⟩ [] 3 (by norm_num)
      (by simp) (by simp [PERTURBATIONS_length])
    simpa [Rng.next] using h
  have s2 : sampleLoop (f + 3) ⟨fun i => c + i, p + 1⟩ [registryPick (c + p)] 3 =
      sampleLoop (f + 2) ⟨fun i => c + i, p + 2⟩
        [registryPick (c + p), registryPick (c + p + 1)] 3 := by
    have h := sampleLoop_step_new (f + 2) ⟨fun i => c + i, p + 1⟩
      [registryPick (c + p)] 3 (by norm_num)
      (by
        simp only [Rng.next, List.map_cons, List.map_nil, List.mem_singleton]
        show ¬ (registryPick (c + (p + 1))).name = (registryPick (c + p)).name
        have : c + (p + 1) = c + p + 1 := by omega
        rw [this]
        exact registryPick_name_ne (by omega))
      (by simp [PERTURBATIONS_length])
    have e : c + (p + 1) = c + p + 1 := by omega
    simpa [Rng.next, e] using h
  have s3 : sampleLoop (f + 2) ⟨fun i => c + i, p + 2⟩
      [registryPick (c + p), registryPick (c + p + 1)] 3 =
      sampleLoop (f + 1) ⟨fun i => c + i, p + 3⟩
        [registryPick (c + p), registryPick (c + p + 1), registryPick (c + p + 2)] 3 := by
    have h := sampleLoop_step_new (f + 1) ⟨fun i => c + i, p + 2⟩
      [registryPick (c + p), registryPick (c + p + 1)] 3 (by norm_num)
      (by
        simp only [Rng.next, List.map_cons, List.map_nil, List.mem_cons,
          List.mem_singleton, List.not_mem_nil, or_false]
        push_neg
        constructor
        · show ¬ (registryPick (c + (p + 2))).name = (registryPick (c + p)).name
          have : c + (p + 2) = c + p + 2 := by omega
          rw [this]
          exact registryPick_name_ne (by omega)
        · show ¬ (registryPick (c + (p + 2))).name = (registryPick (c + p + 1)).name
          have : c + (p + 2) = c + p + 2 := by omega
          rw [this]
          exact registryPick_name_ne (by omega))
      (by simp [PERTURBATIONS_length])
    have e : c + (p + 2) = c + p + 2 := by omega
    simpa [Rng.next, e] using h
  have s4 : sampleLoop (f + 1) ⟨fun i => c + i, p + 3⟩
      [registryPick (c + p), registryPick (c + p + 1), registryPick (c + p + 2)] 3 =
      some ([registryPick (c + p), registryPick (c + p + 1), registryPick (c + p + 2)],
            ⟨fun i => c + i, p + 3⟩) :=
    sampleLoop_stop f _ _ 3 (by norm_num)
  rw [s1, s2, s3, s4]

lemma sample_perturbations_linear3 (c p : ℕ) :
    sample_perturbations SAMPLE_FUEL ⟨fun i => c + i, p⟩ 3 =
      some ([registryPick (c + p), registryPick (c + p + 1), registryPick (c + p + 2)],
            ⟨fun i => c + i, p + 3⟩) := by
  rw [sample_perturbations, if_neg (by norm_num)]
  exact sampleLoop_linear3 c p 996

lemma applyEntries_spec (es : List PEntry) : ∀ (text : List Char) (rng : Rng),
    applyEntries es text rng =
      ((es.foldl (fun acc e => applyEntry e acc.1 acc.2) (text, rng)).1,
       es.map PEntry.name,
       (es.foldl (fun acc e => applyEntry e acc.1 acc.2) (text, rng)).2) := by
  induction es with
  | nil => intro text rng; simp [applyEntries]
  | cons e rest ih =>
    intro text rng
    simp only [applyEntries, ih, List.foldl_cons, List.map_cons]

lemma apply_perturbations_eq (fuel : ℕ) (text : List Char) (rng : Rng) (n : ℤ)
    (entries : List PEntry) (rng' : Rng)
    (h : sample_perturbations fuel rng n = some (entries, rng')) :
    apply_perturbations fuel text rng n = some (applyEntries entries text rng') := by
  rw [apply_perturbations, h]

/- ---------------- lemmas about join and split ---------------- -/

lemma splitSemi_noSemi (x : List Char) (h : ';' ∉ x) : splitSemi x = [x] := by
  induction x with
  | nil => rfl
  | cons c rest ih =>
    have hc : ¬ c = ';' := fun e => h (e ▸ List.mem_cons_self c rest)
    simp only [splitSemi, hc, if_false,
      ih (fun hm => h (List.mem_cons_of_mem c hm))]

lemma splitSemi_append (x t : List Char) (h : ';' ∉ x) :
    splitSemi (x ++ ';' :: t) = x :: splitSemi t := by
  induction x with
  | nil => simp [splitSemi]
  | cons c rest ih =>
    have hc : ¬ c = ';' := fun e => h (e ▸ List.mem_cons_self c rest)
    simp only [List.cons_append, splitSemi, hc, if_false, List.append_eq,
      ih (fun hm => h (List.mem_cons_of_mem c hm))]

lemma splitSemi_join (names : List (List Char))
    (h : ∀ nm ∈ names, ';' ∉ nm) (hne : names ≠ []) :
    splitSemi (joinSemi names) = names := by
  induction names with
  | nil => cases hne rfl
  | cons x xs ih =>
    cases xs with
    | nil => exact splitSemi_noSemi x (h x (by simp))
    | cons y ys =>
      show splitSemi (x ++ ';' :: joinSemi (y :: ys)) = x :: (y :: ys)
      rw [splitSemi_append _ _ (h x (by simp))]
      rw [ih (fun nm hm => h nm (List.mem_cons_of_mem x hm)) (by simp)]

lemma joinSemi_ne_nil (x : List Char) (xs : List (List Char)) (hx : x ≠ []) :
    joinSemi (x :: xs) ≠ [] := by
  cases xs with
  | nil => exact hx
  | cons y ys =>
    show x ++ ';' :: joinSemi (y :: ys) ≠ []
    simp

lemma countSplit_join (names : List (List Char))
    (h : ∀ nm ∈ names, ';' ∉ nm ∧ nm ≠ []) (hne : names ≠ []) :
    countSplit (joinSemi names) = names.length := by
  obtain ⟨x, xs, rfl⟩ : ∃ x xs, names = x :: xs := by
    cases names with
    | nil => cases hne rfl
    | cons x xs => exact ⟨x, xs, rfl⟩
  have hjoin : joinSemi (x :: xs) ≠ [] := joinSemi_ne_nil x xs (h x (by simp)).2
  rw [countSplit, if_neg (by simpa using hjoin)]
  rw [splitSemi_join _ (fun nm hm => (h nm hm).1) (by simp)]

/- ---------------- lemmas about slot filling ---------------- -/

lemma fillValues_missing (template : List Char) :
    ∀ (slots : List (List Char)) (values : List (List Char × List Char)) (rng : Rng),
    (∃ s ∈ slots, lookupSlot s = none) →
    ∃ s, s ∈ slots ∧ lookupSlot s = none ∧
      fillValues template slots values rng = .error (missingSlotMsg s template) := by
  intro slots
  induction slots with
  | nil =>
    intro values rng h
    obtain ⟨s, hs, _⟩ := h
    simp at hs
  | cons s rest ih =>
    intro values rng h
    by_cases hs : lookupSlot s = none
    · exact ⟨s, by simp, hs, by simp only [fillValues, hs]⟩
    · obtain ⟨pool, hpool⟩ := Option.ne_none_iff_exists'.1 hs
      have h' : ∃ x ∈ rest, lookupSlot x = none := by
        obtain ⟨x, hx, hxn⟩ := h
        rcases List.mem_cons.1 hx with rfl | hx'
        · exact absurd hxn hs
        · exact ⟨x, hx', hxn⟩
      obtain ⟨x, hx, hxn, heq⟩ := ih
        ((s, pool.getD (choiceIdx rng pool.length).1 []) :: values)
        (choiceIdx rng pool.length).2 h'
      refine ⟨x, List.mem_cons_of_mem s hx, hxn, ?_⟩
      simp only [fillValues, hpool]
      exact heq

lemma fill_template_missing (template : List Char) (rng : Rng)
    (h : ∃ s ∈ extract_slots template, lookupSlot s = none) :
    ∃ s, s ∈ extract_slots template ∧ lookupSlot s = none ∧
      fill_template template rng = .error (missingSlotMsg s template) := by
  obtain ⟨s, hs, hn, heq⟩ := fillValues_missing template (extract_slots template) [] rng h
  exact ⟨s, hs, hn, by simp only [fill_template, heq]⟩

lemma fillValues_ok (template : List Char) :
    ∀ (slots : List (List Char)) (values : List (List Char × List Char))
      (stream : ℕ → ℕ) (p : ℕ),
    (∀ s ∈ slots, (lookupSlot s).isSome) →
    ∃ bs, fillValues template slots values ⟨stream, p⟩ =
        .ok (bs ++ values, ⟨stream, p + slots.length⟩) ∧
      ∀ s ∈ slots, ∃ v, (s, v) ∈ bs := by
  intro slots
  induction slots with
  | nil =>
    intro values stream p h
    exact ⟨[], by simp [fillValues], by simp⟩
  | cons s rest ih =>
    intro values stream p h
    obtain ⟨pool, hpool⟩ := Option.isSome_iff_exists.1 (h s (by simp))
    obtain ⟨bs, heq, hbs⟩ := ih
      ((s, pool.getD (stream p % pool.length) []) :: values) stream (p + 1)
      (fun x hx => h x (List.mem_cons_of_mem s hx))
    refine ⟨bs ++ [(s, pool.getD (stream p % pool.length) [])], ?_, ?_⟩
    · simp only [fillValues, hpool, choiceIdx, Rng.next]
      rw [heq]
      have hl : p + 1 + rest.length = p + (s :: rest).length := by
        simp only [List.length_cons]
        omega
      rw [hl]
      simp [List.append_assoc]
    · intro x hx
      rcases List.mem_cons.1 hx with rfl | hx'
      · exact ⟨pool.getD (stream p % pool.length) [], by simp⟩
      · obtain ⟨v, hv⟩ := hbs x hx'
        exact ⟨v, List.mem_append_left _ hv⟩

lemma formatAux_ok (values : List (List Char × List Char)) :
    ∀ (fuel : ℕ) (s : List Char),
    formatOKAux fuel s = true →
    (∀ name ∈ extractSlotsAux fuel s,
      ((values.find? (fun q => q.1 == name)).map Prod.snd).isSome) →
    ∃ out, formatAux values fuel s = .ok out := by
  intro fuel
  induction fuel with
  | zero => intro s _ _; exact ⟨[], rfl⟩
  | succ fuel ih =>
    intro s hwf h
    match s with
    | [] => exact ⟨[], rfl⟩
    | c :: rest =>
      by_cases hc : c = '{'
      · subst hc
        cases hm : matchSlot rest with
        | none =>
          rw [formatOKAux, if_pos rfl, hm] at hwf
          cases hwf
        | some nr =>
          obtain ⟨name, rest'⟩ := nr
          have hwf' : formatOKAux fuel rest' = true := by
            rw [formatOKAux, if_pos rfl, hm] at hwf
            exact hwf
          have hname := h name (by
            simp only [extractSlotsAux, if_pos rfl, hm]
            exact List.mem_cons_self _ _)
          obtain ⟨v, hv⟩ := Option.isSome_iff_exists.1 hname
          obtain ⟨out, ho⟩ := ih rest' hwf' (fun nm hnm => h nm (by
            simp only [extractSlotsAux, if_pos rfl, hm]
            exact List.mem_cons_of_mem _ hnm))
          exact ⟨v ++ out, by simp [formatAux, hm, hv, ho]⟩
      · by_cases hcr : c = '}'
        · subst hcr
          rw [formatOKAux, if_neg (by decide), if_pos rfl] at hwf
          cases hwf
        · have hwf' : formatOKAux fuel rest = true := by
            rw [formatOKAux, if_neg hc, if_neg hcr] at hwf
            exact hwf
          obtain ⟨out, ho⟩ := ih rest hwf' (fun nm hnm => h nm (by
            simp only [extractSlotsAux, if_neg hc]
            exact hnm))
          exact ⟨c :: out, by simp only [formatAux, if_neg hc, if_neg hcr, ho]⟩

lemma fill_template_ok (template : List Char) (stream : ℕ → ℕ) (p : ℕ)
    (h : ∀ s ∈ extract_slots template, (lookupSlot s).isSome)
    (hwf : formatOK template = true) :
    ∃ out, fill_template template ⟨stream, p⟩ =
      .ok (out, ⟨stream, p + (extract_slots template).length⟩) := by
  obtain ⟨bs, heq, hbs⟩ := fillValues_ok template (extract_slots template) [] stream p h
  have hfa : ∀ name ∈ extractSlotsAux (template.length + 1) template,
      ((List.find? (fun q : List Char × List Char => q.1 == name) (bs ++ [])).map
        Prod.snd).isSome := by
    intro name hname
    obtain ⟨v, hv⟩ := hbs name hname
    have h2 : (List.find? (fun q : List Char × List Char => q.1 == name)
        (bs ++ [])).isSome := by
      rw [List.find?_isSome]
      refine ⟨(name, v), ?_, ?_⟩
      · simpa using hv
      · simp
    simpa using h2
  obtain ⟨out, ho⟩ := formatAux_ok (bs ++ []) (template.length + 1) template hwf hfa
  exact ⟨out, by simp only [fill_template, heq, formatTemplate, ho]⟩

/- ---------------- lemmas about row assembly ---------------- -/

/-- Decidable well-formedness of one (intent, generator) cell of the
taxonomy: the template family exists and is non-empty, the first template's
slots all resolve, and the generator has a split role. -/
def cellOK (i g : List Char) : Bool :=
  match lookupTemplates i g with
  | some (t :: _) =>
    (extract_slots t).all (fun s => (lookupSlot s).isSome) && formatOK t &&
      (match generator_split g with | .ok _ => true | .error _ => false)
  | _ => false

lemma taxonomy_ok :
    (INTENTS.all fun i => GENERATORS.all fun g => cellOK i g) = true := by decide

lemma intents_some : (INTENTS.all fun i => (lookupIntent i).isSome) = true := by decide

lemma GENERATORS_nodup : GENERATORS.Nodup := by decide

lemma INTENTS_nodup : INTENTS.Nodup := by decide

lemma registry_names_ok : ∀ nm ∈ PERTURBATIONS.map PEntry.name,
    ';' ∉ nm ∧ nm ≠ [] := by decide

lemma cellOK_spec {i g : List Char} (h : cellOK i g = true) :
    ∃ t ts, lookupTemplates i g = some (t :: ts) ∧
      (∀ s ∈ extract_slots t, (lookupSlot s).isSome) ∧ formatOK t = true ∧
      ∃ lbl, generator_split g = .ok lbl := by
  unfold cellOK at h
  cases hl : lookupTemplates i g with
  | none => rw [hl] at h; cases h
  | some ts =>
    cases ts with
    | nil => rw [hl] at h; cases h
    | cons t rest =>
      rw [hl] at h
      rw [Bool.and_eq_true, Bool.and_eq_true] at h
      obtain ⟨⟨h1, h1f⟩, h2⟩ := h
      refine ⟨t, rest, rfl, ?_, h1f, ?_⟩
      · intro s hs
        exact List.all_eq_true.1 h1 s hs
      · cases hgs : generator_split g with
        | error e => rw [hgs] at h2; cases h2
        | ok lbl => exact ⟨lbl, rfl⟩

lemma rowFor_ok (intent gen template tid : List Char) (j c : ℕ)
    (hslots : ∀ s ∈ extract_slots template, (lookupSlot s).isSome)
    (hwf : formatOK template = true)
    (hgen : ∃ lbl, generator_split gen = .ok lbl) :
    ∃ r, rowFor intent gen template tid j c = .ok r ∧
      r.intent_gold = intent ∧ r.generator_id = gen ∧
      generator_split gen = .ok r.split ∧
      countSplit r.applied_perturbations = 3 := by
  obtain ⟨lbl, hlbl⟩ := hgen
  obtain ⟨filled, hfill⟩ := fill_template_ok template (fun i => c + i) 0 hslots hwf
  rw [Nat.zero_add] at hfill
  set K := (extract_slots template).length with hK
  have hfillm : fill_template template (mkRng c) =
      .ok (filled, ⟨fun i => c + i, K⟩) := hfill
  have hsample := sample_perturbations_linear3 c K
  have happly := apply_perturbations_eq SAMPLE_FUEL filled ⟨fun i => c + i, K⟩ 3
    _ _ hsample
  rw [applyEntries_spec] at happly
  simp only [List.map_cons, List.map_nil] at happly
  have hN : ((N_PERTURB : ℕ) : ℤ) = 3 := rfl
  set F := List.foldl (fun acc e => applyEntry e acc.1 acc.2)
    (filled, (⟨fun i => c + i, K + 3⟩ : Rng))
    [registryPick (c + K), registryPick (c + K + 1), registryPick (c + K + 2)]
    with hF
  refine ⟨{ message_id := make_message_id intent gen j
            text := F.1
            lang := LANG
            source := SOURCE
            intent_gold := intent
            generator_id := gen
            template_id := tid
            seed := c
            split := lbl
            length_chars := F.1.length
            has_question_mark := F.1.contains '?'
            applied_perturbations := joinSemi [(registryPick (c + K)).name,
              (registryPick (c + K + 1)).name, (registryPick (c + K + 2)).name] },
    ?_, rfl, rfl, hlbl, ?_⟩
  · simp only [rowFor, hfillm, hN, happly, hlbl]
  · show countSplit (joinSemi [(registryPick (c + K)).name,
      (registryPick (c + K + 1)).name, (registryPick (c + K + 2)).name]) = 3
    rw [countSplit_join]
    · rfl
    · intro nm hnm
      have hreg := registry_names_ok
      rcases List.mem_cons.1 hnm with rfl | hnm'
      · exact hreg _ (List.mem_map_of_mem _ (registryPick_mem _))
      rcases List.mem_cons.1 hnm' with rfl | hnm''
      · exact hreg _ (List.mem_map_of_mem _ (registryPick_mem _))
      rcases List.mem_cons.1 hnm'' with rfl | hnm'''
      · exact hreg _ (List.mem_map_of_mem _ (registryPick_mem _))
      · simp at hnm'''
    · simp

lemma genRows_ok (intent gen template tid : List Char)
    (hslots : ∀ s ∈ extract_slots template, (lookupSlot s).isSome)
    (hwf : formatOK template = true)
    (hgen : ∃ lbl, generator_split gen = .ok lbl) :
    ∀ (js : List ℕ) (g : Rng),
    ∃ rows g', genRows intent gen template tid js g = .ok (rows, g') ∧
      rows.length = js.length ∧
      ∀ r ∈ rows, r.intent_gold = intent ∧ r.generator_id = gen ∧
        generator_split gen = .ok r.split ∧
        countSplit r.applied_perturbations = 3 := by
  intro js
  induction js with
  | nil => intro g; exact ⟨[], g, rfl, rfl, by simp⟩
  | cons j rest ih =>
    intro g
    obtain ⟨row, hrow, h1, h2, h3, h4⟩ :=
      rowFor_ok intent gen template tid j (randint31 g).1 hslots hwf hgen
    obtain ⟨rows, g', heq, hlen, hall⟩ := ih (randint31 g).2
    refine ⟨row :: rows, g', ?_, by simp [hlen], ?_⟩
    · simp only [genRows, hrow, heq]
    · intro r hr
      rcases List.mem_cons.1 hr with rfl | hr'
      · exact ⟨h1, h2, h3, h4⟩
      · exact hall r hr'

lemma countP_all_eq (rows : List Row) (i g : List Char)
    (h : ∀ r ∈ rows, r.intent_gold = i ∧ r.generator_id = g) :
    ∀ i₀ g₀ : List Char, rows.countP (pairPred i₀ g₀) =
      if i₀ = i ∧ g₀ = g then rows.length else 0 := by
  intro i₀ g₀
  by_cases hp : i₀ = i ∧ g₀ = g
  · obtain ⟨rfl, rfl⟩ := hp
    rw [if_pos ⟨rfl, rfl⟩, List.countP_eq_length]
    intro r hr
    obtain ⟨h1, h2⟩ := h r hr
    simp [pairPred, h1, h2]
  · rw [if_neg hp, List.countP_eq_zero]
    intro r hr
    obtain ⟨h1, h2⟩ := h r hr
    simp only [pairPred, h1, h2, Bool.and_eq_true, beq_iff_eq]
    intro hcon
    exact hp ⟨hcon.1.symm, hcon.2.symm⟩

lemma cellLoop_ok (intent : List Char) :
    ∀ (gens : List (List Char)) (g : Rng),
    (∀ x ∈ gens, cellOK intent x = true) → gens.Nodup →
    ∃ rows g', cellLoop intent gens g = .ok (rows, g') ∧
      rows.length = 60 * gens.length ∧
      (∀ r ∈ rows, r.intent_gold = intent ∧ r.generator_id ∈ gens ∧
        generator_split r.generator_id = .ok r.split ∧
        countSplit r.applied_perturbations = 3) ∧
      ∀ i₀ g₀ : List Char, rows.countP (pairPred i₀ g₀) =
        if i₀ = intent ∧ g₀ ∈ gens then 60 else 0 := by
  intro gens
  induction gens with
  | nil =>
    intro g _ _
    exact ⟨[], g, rfl, by simp, by simp, by simp⟩
  | cons gen rest ih =>
    intro g hok hnd
    obtain ⟨t, ts, hlt, hslots, hwf, hgen⟩ := cellOK_spec (hok gen (by simp))
    obtain ⟨rows1, g1, heq1, hlen1, hall1⟩ :=
      genRows_ok intent gen t (stable_template_id intent gen 0 t) hslots hwf hgen
        (List.range N_PER_GENERATOR) g
    obtain ⟨rows2, g2, heq2, hlen2, hall2, hcount2⟩ := ih g1
      (fun x hx => hok x (List.mem_cons_of_mem _ hx)) (List.Nodup.of_cons hnd)
    have hlen1' : rows1.length = 60 := by
      rw [hlen1, List.length_range]
      rfl
    have hgen_not : gen ∉ rest := (List.nodup_cons.1 hnd).1
    refine ⟨rows1 ++ rows2, g2, ?_, ?_, ?_, ?_⟩
    · simp only [cellLoop, hlt, heq1, heq2]
    · rw [List.length_append, hlen1', hlen2, List.length_cons]
      omega
    · intro r hr
      rcases List.mem_append.1 hr with hr1 | hr2
      · obtain ⟨h1, h2, h3, h4⟩ := hall1 r hr1
        exact ⟨h1, by rw [h2]; exact List.mem_cons_self _ _, h2 ▸ h3, h4⟩
      · obtain ⟨h1, h2, h3, h4⟩ := hall2 r hr2
        exact ⟨h1, List.mem_cons_of_mem _ h2, h3, h4⟩
    · intro i₀ g₀
      rw [List.countP_append, hcount2 i₀ g₀]
      rw [countP_all_eq rows1 intent gen
        (fun r hr => ⟨(hall1 r hr).1, (hall1 r hr).2.1⟩) i₀ g₀]
      rw [hlen1']
      by_cases h1 : i₀ = intent
      · subst h1
        by_cases h2 : g₀ = gen
        · subst h2
          rw [if_pos ⟨rfl, rfl⟩, if_neg (fun hc => hgen_not hc.2),
            if_pos ⟨rfl, List.mem_cons_self _ _⟩]
        · rw [if_neg (fun hc => h2 hc.2)]
          by_cases h3 : g₀ ∈ rest
          · rw [if_pos ⟨rfl, h3⟩, if_pos ⟨rfl, List.mem_cons_of_mem _ h3⟩]
          · rw [if_neg (fun hc => h3 hc.2), if_neg (fun hc => by
              rcases List.mem_cons.1 hc.2 with hcc | hcc
              · exact h2 hcc
              · exact h3 hcc)]
      · rw [if_neg (fun hc => h1 hc.1), if_neg (fun hc => h1 hc.1),
          if_neg (fun hc => h1 hc.1)]

lemma intentLoop_ok :
    ∀ (intents : List (List Char)) (g : Rng),
    (∀ i ∈ intents, (lookupIntent i).isSome ∧
      ∀ x ∈ GENERATORS, cellOK i x = true) →
    intents.Nodup →
    ∃ rows g', intentLoop intents g = .ok (rows, g') ∧
      rows.length = 300 * intents.length ∧
      (∀ r ∈ rows, r.intent_gold ∈ intents ∧ r.generator_id ∈ GENERATORS ∧
        generator_split r.generator_id = .ok r.split ∧
        countSplit r.applied_perturbations = 3) ∧
      ∀ i₀ g₀ : List Char, rows.countP (pairPred i₀ g₀) =
        if i₀ ∈ intents ∧ g₀ ∈ GENERATORS then 60 else 0 := by
  intro intents
  induction intents with
  | nil =>
    intro g _ _
    exact ⟨[], g, rfl, by simp, by simp, by simp⟩
  | cons intent rest ih =>
    intro g hok hnd
    obtain ⟨hsome, hcells⟩ := hok intent (by simp)
    obtain ⟨m, hm⟩ := Option.isSome_iff_exists.1 hsome
    obtain ⟨rows1, g1, heq1, hlen1, hall1, hcount1⟩ :=
      cellLoop_ok intent GENERATORS g hcells GENERATORS_nodup
    obtain ⟨rows2, g2, heq2, hlen2, hall2, hcount2⟩ := ih g1
      (fun x hx => hok x (List.mem_cons_of_mem _ hx)) (List.Nodup.of_cons hnd)
    have hGlen : GENERATORS.length = 5 := rfl
    have hintent_not : intent ∉ rest := (List.nodup_cons.1 hnd).1
    refine ⟨rows1 ++ rows2, g2, ?_, ?_, ?_, ?_⟩
    · simp only [intentLoop, hm, heq1, heq2]
    · rw [List.length_append, hlen1, hlen2, hGlen, List.length_cons]
      omega
    · intro r hr
      rcases List.mem_append.1 hr with hr1 | hr2
      · obtain ⟨h1, h2, h3, h4⟩ := hall1 r hr1
        exact ⟨by rw [h1]; exact List.mem_cons_self _ _, h2, h3, h4⟩
      · obtain ⟨h1, h2, h3, h4⟩ := hall2 r hr2
        exact ⟨List.mem_cons_of_mem _ h1, h2, h3, h4⟩
    · intro i₀ g₀
      rw [List.countP_append, hcount1 i₀ g₀, hcount2 i₀ g₀]
      by_cases h1 : g₀ ∈ GENERATORS
      · by_cases h2 : i₀ = intent
        · subst h2
          rw [if_pos ⟨rfl, h1⟩, if_neg (fun hc => hintent_not hc.1),
            if_pos ⟨List.mem_cons_self _ _, h1⟩]
        · rw [if_neg (fun hc => h2 hc.1)]
          by_cases h3 : i₀ ∈ rest
          · rw [if_pos ⟨h3, h1⟩, if_pos ⟨List.mem_cons_of_mem _ h3, h1⟩]
          · rw [if_neg (fun hc => h3 hc.1), if_neg (fun hc => by
              rcases List.mem_cons.1 hc.1 with hcc | hcc
              · exact h2 hcc
              · exact h3 hcc)]
      · rw [if_neg (fun hc => h1 hc.2), if_neg (fun hc => h1 hc.2),
          if_neg (fun hc => h1 hc.2)]

/-- Totality and invariants of generate: for every seed the pipeline
produces a dataset that passes all three fail-fast checks, with 2400 rows,
60 rows in every (intent, generator) cell, and exactly 3 logged perturbation
names per row. -/
theorem generate_total (seed : ℕ) :
    ∃ rows, generate seed = .ok rows ∧
      rows.length = 2400 ∧
      (∀ i₀ g₀ : List Char, rows.countP (pairPred i₀ g₀) =
        if i₀ ∈ INTENTS ∧ g₀ ∈ GENERATORS then 60 else 0) ∧
      ∀ r ∈ rows, r.intent_gold ∈ INTENTS ∧ r.generator_id ∈ GENERATORS ∧
        generator_split r.generator_id = .ok r.split ∧
        countSplit r.applied_perturbations = 3 := by
  have hok : ∀ i ∈ INTENTS, (lookupIntent i).isSome ∧
      ∀ x ∈ GENERATORS, cellOK i x = true := by
    intro i hi
    constructor
    · exact List.all_eq_true.1 intents_some i hi
    · intro x hx
      exact List.all_eq_true.1 (List.all_eq_true.1 taxonomy_ok i hi) x hx
  obtain ⟨rows, gend, heq, hlen, hall, hcount⟩ :=
    intentLoop_ok INTENTS (mkRng seed) hok INTENTS_nodup
  have hlen' : rows.length = 2400 := by rw [hlen]; rfl
  have hbal : ((rows.map fun r => (r.intent_gold, r.generator_id)).dedup.any
      fun p => rows.countP (pairPred p.1 p.2) != N_PER_GENERATOR) = false := by
    rw [List.any_eq_false]
    intro p hp
    rw [List.mem_dedup] at hp
    obtain ⟨r, hr, hpr⟩ := List.mem_map.1 hp
    obtain ⟨h1, h2, _, _⟩ := hall r hr
    have hc : rows.countP (pairPred p.1 p.2) = 60 := by
      rw [hcount p.1 p.2, if_pos ?_]
      rw [← hpr]
      exact ⟨h1, h2⟩
    simp [hc, N_PER_GENERATOR]
  have hpert : (rows.all fun r =>
      countSplit r.applied_perturbations == N_PERTURB) = true := by
    rw [List.all_eq_true]
    intro r hr
    have h4 := (hall r hr).2.2.2
    simp [h4, N_PERTURB]
  refine ⟨rows, ?_, hlen', hcount, hall⟩
  rw [generate, heq]
  show (if rows.length ≠ INTENTS.length * GENERATORS.length * N_PER_GENERATOR then
      Except.error "Row count mismatch".data
    else if ((rows.map fun r => (r.intent_gold, r.generator_id)).dedup.any
        fun p => rows.countP (pairPred p.1 p.2) != N_PER_GENERATOR) = true then
      Except.error "Unbalanced groups".data
    else if (!rows.all fun r =>
        countSplit r.applied_perturbations == N_PERTURB) = true then
      Except.error "Perturbation count mismatch in some rows".data
    else Except.ok rows) = Except.ok rows
  rw [if_neg (fun hc => hc hlen'), if_neg (by simp [hbal]),
    if_neg (by simp [hpert])]

/- ---------------- claim theorems ---------------- -/

/-- Field-by-field equality of two rows (all twelve columns of the source). -/
def rowFieldEq (a b : Row) : Prop :=
  a.message_id = b.message_id ∧ a.text = b.text ∧ a.lang = b.lang ∧
  a.source = b.source ∧ a.intent_gold = b.intent_gold ∧
  a.generator_id = b.generator_id ∧ a.template_id = b.template_id ∧
  a.seed = b.seed ∧ a.split = b.split ∧ a.length_chars = b.length_chars ∧
  a.has_question_mark = b.has_question_mark ∧
  a.applied_perturbations = b.applied_perturbations

/-- C1: for every fixed seed, two independent runs of the dataset generation
function produce identical Datasets, equal field by field in every row and in
row order.  In the embedding every source of randomness is the single oracle
derived deterministically from the seed (as random.Random(seed) is
deterministic in the seed) and the iteration order is fixed, so two runs with
equal seeds return row lists of equal length that are pointwise equal in all
twelve fields. -/
theorem C1_generate_two_runs_identical (s₁ s₂ : ℕ) (h : s₁ = s₂)
    (rows₁ rows₂ : List Row)
    (h₁ : generate s₁ = .ok rows₁) (h₂ : generate s₂ = .ok rows₂) :
    rows₁.length = rows₂.length ∧ List.Forall₂ rowFieldEq rows₁ rows₂ := by
  subst h
  rw [h₁] at h₂
  injection h₂ with h₂
  subst h₂
  refine ⟨rfl, ?_⟩
  rw [List.forall₂_same]
  intro x _
  exact ⟨rfl, rfl, rfl, rfl, rfl, rfl, rfl, rfl, rfl, rfl, rfl, rfl⟩

/-- Witness for C1 at seed 1337, with the hypotheses discharged by the run
that generate_total produces. -/
theorem C1_witness : ∃ rows : List Row, generate 1337 = .ok rows ∧
    rows.length = rows.length ∧ List.Forall₂ rowFieldEq rows rows := by
  obtain ⟨rows, hok, -, -, -⟩ := generate_total 1337
  exact ⟨rows, hok, C1_generate_two_runs_identical 1337 1337 rfl rows rows hok hok⟩

/-- C2: for every seed, generation succeeds, and every Dataset returned by
generate has exactly #intents × #generators × replicates = 8 × 5 × 60 = 2400
rows, every (intent, generator) cell of the taxonomy has exactly
N_PER_GENERATOR = 60 rows, and every row's applied-perturbation list (the
semicolon-joined column parsed back) has exactly N_PERTURB = 3 entries.  A
dataset violating these invariants is never returned as valid output: the
fail-fast checks in generate rule it out of the .ok result. -/
theorem C2_generate_invariants (seed : ℕ) :
    (∃ rows, generate seed = .ok rows) ∧
    ∀ rows, generate seed = .ok rows →
      rows.length = 8 * 5 * 60 ∧
      (∀ i₀ g₀ : List Char, i₀ ∈ INTENTS → g₀ ∈ GENERATORS →
        rows.countP (pairPred i₀ g₀) = 60) ∧
      ∀ r ∈ rows, (splitSemi r.applied_perturbations).length = 3 := by
  obtain ⟨rows, hok, hlen, hcount, hall⟩ := generate_total seed
  refine ⟨⟨rows, hok⟩, ?_⟩
  intro rows' h'
  rw [hok] at h'
  injection h' with h'
  subst h'
  refine ⟨by rw [hlen], ?_, ?_⟩
  · intro i₀ g₀ hi hg
    rw [hcount i₀ g₀, if_pos ⟨hi, hg⟩]
  · intro r hr
    have h4 := (hall r hr).2.2.2
    rw [countSplit] at h4
    by_cases he : r.applied_perturbations.isEmpty = true
    · rw [if_pos he] at h4
      omega
    · rw [if_neg he] at h4
      exact h4

/-- Witness for C2 at seed 1337, applying the theorem to the run it proves to
exist. -/
theorem C2_witness : ∃ rows, generate 1337 = .ok rows ∧
    (rows.length = 8 * 5 * 60 ∧
      (∀ i₀ g₀ : List Char, i₀ ∈ INTENTS → g₀ ∈ GENERATORS →
        rows.countP (pairPred i₀ g₀) = 60) ∧
      ∀ r ∈ rows, (splitSemi r.applied_perturbations).length = 3) := by
  obtain ⟨⟨rows, hok⟩, hinv⟩ := C2_generate_invariants 1337
  exact ⟨rows, hok, hinv rows hok⟩

lemma train_test_disjoint : ∀ x ∈ TRAIN_GENS, x ∉ TEST_GENS := by decide

/-- The split-label property of one row: train_gen exactly on the train role
set, test_gen exactly on the test role set, and no third value. -/
def splitLabelOK (r : Row) : Prop :=
  (r.split = "train_gen".data ↔ r.generator_id ∈ TRAIN_GENS) ∧
  (r.split = "test_gen".data ↔ r.generator_id ∈ TEST_GENS) ∧
  (r.split = "train_gen".data ∨ r.split = "test_gen".data)

/-- C8: for every row in a generated dataset, the split label is train_gen
iff the row's generator is in TRAIN_GENS = {direct, polite, contextual}, and
test_gen iff it is in TEST_GENS = {constraint_heavy, noisy}; no other split
value is ever produced. -/
theorem C8_split_labels (seed : ℕ) (rows : List Row)
    (h : generate seed = .ok rows) : ∀ r ∈ rows, splitLabelOK r := by
  obtain ⟨rows', hok, -, -, hall⟩ := generate_total seed
  rw [hok] at h
  injection h with h
  subst h
  intro r hr
  obtain ⟨-, -, hsplit, -⟩ := hall r hr
  rw [generator_split] at hsplit
  by_cases htr : r.generator_id ∈ TRAIN_GENS
  · rw [if_pos htr] at hsplit
    injection hsplit with hs
    refine ⟨⟨fun _ => htr, fun _ => hs.symm⟩, ?_, Or.inl hs.symm⟩
    constructor
    · intro hc
      rw [← hs] at hc
      cases hc
    · intro hc
      exact absurd hc (train_test_disjoint _ htr)
  · rw [if_neg htr] at hsplit
    by_cases hte : r.generator_id ∈ TEST_GENS
    · rw [if_pos hte] at hsplit
      injection hsplit with hs
      refine ⟨?_, ⟨fun _ => hte, fun _ => hs.symm⟩, Or.inr hs.symm⟩
      constructor
      · intro hc
        rw [← hs] at hc
        cases hc
      · intro hc
        exact absurd htr (fun hcc => hcc hc)
    · rw [if_neg hte] at hsplit
      cases hsplit

/-- Witness for C8 at seed 1337, applied to the run given by generate_total. -/
theorem C8_witness : ∃ rows, generate 1337 = .ok rows ∧
    ∀ r ∈ rows, splitLabelOK r := by
  obtain ⟨rows, hok, -, -, -⟩ := generate_total 1337
  exact ⟨rows, hok, C8_split_labels 1337 rows hok⟩

lemma sample_perturbations_spec (fuel : ℕ) (rng : Rng) (n : ℤ)
    (entries : List PEntry) (rng' : Rng) (hn : 1 ≤ n)
    (h : sample_perturbations fuel rng n = some (entries, rng')) :
    (entries.map PEntry.name).Nodup ∧ (∀ e ∈ entries, e ∈ PERTURBATIONS) ∧
      (entries.length : ℤ) = min n 10 := by
  rw [sample_perturbations, if_neg (by omega)] at h
  refine sampleLoop_some fuel rng [] n entries rng' h (by simp) (by simp) ?_
  simp only [List.length_nil, Nat.cast_zero]
  omega

/-- C3: for every input text, every row-scoped random source, and every n
with 1 ≤ n ≤ registry size for which the sampling retry loop returns (the
Python loop terminates with probability one; in the oracle model this is the
hypothesis that sample_perturbations yields a result), apply_perturbations
applies the n sampled perturbations strictly in the order they were sampled —
the output text and final random state are the left fold of the entry
transforms, in sampled order, over the input — and returns the ordered list
of sampled names with exactly n entries, logged independently of whether a
transform was a logical no-op on that text. -/
theorem C3_apply_in_order (text : List Char) (rng : Rng) (n : ℤ) (fuel : ℕ)
    (entries : List PEntry) (rng' : Rng)
    (h1 : 1 ≤ n) (h10 : n ≤ 10)
    (hs : sample_perturbations fuel rng n = some (entries, rng')) :
    apply_perturbations fuel text rng n =
      some ((entries.foldl (fun acc e => applyEntry e acc.1 acc.2) (text, rng')).1,
        entries.map PEntry.name,
        (entries.foldl (fun acc e => applyEntry e acc.1 acc.2) (text, rng')).2) ∧
    ((entries.map PEntry.name).length : ℤ) = n := by
  constructor
  · rw [apply_perturbations_eq fuel text rng n entries rng' hs, applyEntries_spec]
  · rw [List.length_map]
    obtain ⟨-, -, hlen⟩ := sample_perturbations_spec fuel rng n entries rng' h1 hs
    omega

/-- Witness for C3 with a concrete text, oracle and n = 3: the identity
oracle stream draws the first three registry entries in registry order. -/
theorem C3_witness :
    ((1 : ℤ) ≤ 3 ∧ (3 : ℤ) ≤ 10 ∧
      sample_perturbations 10 ⟨fun i => i, 0⟩ 3 =
        some (PERTURBATIONS.take 3, ⟨fun i => i, 3⟩)) ∧
    (apply_perturbations 10 "Hi".data ⟨fun i => i, 0⟩ 3 =
      some (((PERTURBATIONS.take 3).foldl (fun acc e => applyEntry e acc.1 acc.2)
          ("Hi".data, (⟨fun i => i, 3⟩ : Rng))).1,
        (PERTURBATIONS.take 3).map PEntry.name,
        ((PERTURBATIONS.take 3).foldl (fun acc e => applyEntry e acc.1 acc.2)
          ("Hi".data, (⟨fun i => i, 3⟩ : Rng))).2) ∧
      (((PERTURBATIONS.take 3).map PEntry.name).length : ℤ) = 3) := by
  refine ⟨⟨by norm_num, by norm_num, by rfl⟩, ?_⟩
  exact C3_apply_in_order "Hi".data ⟨fun i => i, 0⟩ 3 10 (PERTURBATIONS.take 3)
    ⟨fun i => i, 3⟩ (by norm_num) (by norm_num) (by rfl)

/-- C4: for every random source and every n ≥ 1 for which the retry loop
returns, sample_perturbations yields entries with pairwise-distinct names,
all drawn from the registry; when n is at most the registry size it returns
exactly n entries, and when n exceeds the registry size it returns the full
registry — every registry entry, no duplicates — without raising an error.
The selection procedure is the embedded retry loop: every draw uses the
population and weight vector of the entire registry (never reduced or
renormalized after a pick), draws duplicating an already-chosen name are
discarded, and the loop stops once n unique names are collected or all
registry names are chosen. -/
theorem C4_sample_without_replacement (rng : Rng) (n : ℤ) (fuel : ℕ)
    (entries : List PEntry) (rng' : Rng) (hn : 1 ≤ n)
    (h : sample_perturbations fuel rng n = some (entries, rng')) :
    (entries.map PEntry.name).Nodup ∧
    (∀ e ∈ entries, e ∈ PERTURBATIONS) ∧
    (n ≤ 10 → (entries.length : ℤ) = n) ∧
    (10 < n → entries.length = 10 ∧ ∀ e ∈ PERTURBATIONS, e ∈ entries) := by
  obtain ⟨hnd, hsub, hlen⟩ := sample_perturbations_spec fuel rng n entries rng' hn h
  refine ⟨hnd, hsub, fun hle => by omega, fun hgt => ?_⟩
  have hlen10 : entries.length = 10 := by omega
  exact ⟨hlen10, entries_cover entries hnd hsub hlen10⟩

/-- Witness for C4 at the boundary n = 11 > registry size: the identity
oracle returns the full registry in 10 draws, without error. -/
theorem C4_witness :
    ((1 : ℤ) ≤ 11 ∧
      sample_perturbations 20 ⟨fun i => i, 0⟩ 11 =
        some (PERTURBATIONS, ⟨fun i => i, 10⟩)) ∧
    ((PERTURBATIONS.map PEntry.name).Nodup ∧
     (∀ e ∈ PERTURBATIONS, e ∈ PERTURBATIONS) ∧
     ((11 : ℤ) ≤ 10 → ((PERTURBATIONS.length : ℕ) : ℤ) = 11) ∧
     ((10 : ℤ) < 11 → PERTURBATIONS.length = 10 ∧
        ∀ e ∈ PERTURBATIONS, e ∈ PERTURBATIONS)) := by
  refine ⟨⟨by norm_num, by rfl⟩, ?_⟩
  exact C4_sample_without_replacement ⟨fun i => i, 0⟩ 11 20 PERTURBATIONS
    ⟨fun i => i, 10⟩ (by norm_num) (by rfl)

/-- C10: for every random source and every n ≤ 0, sample_perturbations
returns the empty selection without error and without consuming the random
source; consequently apply_perturbations with n = 0 returns the input text
unchanged together with an empty applied-names list. -/
theorem C10_nonpositive_n (fuel : ℕ) (rng : Rng) (n : ℤ) (text : List Char)
    (hn : n ≤ 0) :
    sample_perturbations fuel rng n = some ([], rng) ∧
    apply_perturbations fuel text rng 0 = some (text, [], rng) := by
  have h0 : sample_perturbations fuel rng 0 = some ([], rng) := by
    rw [sample_perturbations, if_pos (by norm_num)]
  constructor
  · rw [sample_perturbations, if_pos hn]
  · rw [apply_perturbations, h0]
    rfl

/-- Witness for C10 at n = -2 and a concrete text and oracle. -/
theorem C10_witness :
    (-2 : ℤ) ≤ 0 ∧
    (sample_perturbations 5 ⟨fun i => i, 0⟩ (-2) = some ([], ⟨fun i => i, 0⟩) ∧
     apply_perturbations 5 "Hi".data ⟨fun i => i, 0⟩ 0 =
       some ("Hi".data, [], ⟨fun i => i, 0⟩)) :=
  ⟨by norm_num, C10_nonpositive_n 5 ⟨fun i => i, 0⟩ (-2) "Hi".data (by norm_num)⟩

/- ---------------- C5 and C6: slot filling ---------------- -/

lemma poolK_getD_mem (i : ℕ) (h : i < 3) :
    ["2".data, "3".data, "5".data].getD i [] ∈ ["2".data, "3".data, "5".data] := by
  have key : ∀ j, j < 3 →
      ["2".data, "3".data, "5".data].getD j [] ∈ ["2".data, "3".data, "5".data] := by
    decide
  exact key i h

lemma fillKK (stream : ℕ → ℕ) (p : ℕ) :
    fill_template "{k} and {k}".data ⟨stream, p⟩ =
      .ok ((["2".data, "3".data, "5".data].getD (stream (p + 1) % 3) []) ++
        " and ".data ++
        (["2".data, "3".data, "5".data].getD (stream (p + 1) % 3) []),
        ⟨stream, p + 2⟩) := by
  have h1 : fillValues "{k} and {k}".data (extract_slots "{k} and {k}".data) []
      ⟨stream, p⟩ =
      .ok ([(['k'], ["2".data, "3".data, "5".data].getD (stream (p + 1) % 3) []),
            (['k'], ["2".data, "3".data, "5".data].getD (stream p % 3) [])],
        ⟨stream, p + 2⟩) := rfl
  have h2 : ∀ v₂ v₁ : List Char,
      formatTemplate "{k} and {k}".data [(['k'], v₂), (['k'], v₁)] =
        .ok (v₂ ++ (' ' :: 'a' :: 'n' :: 'd' :: ' ' :: (v₂ ++ []))) :=
    fun v₂ v₁ => rfl
  simp only [fill_template, h1, h2, List.append_nil, List.append_assoc]
  rfl

/-- C5 (amended): when the same slot name appears more than once in one
template, fill_template draws one pool value per occurrence (the random
source advances once per occurrence — here from p to p + 2), but the values
dictionary is keyed by slot name, so the last draw overwrites the earlier
ones and str.format substitutes that single value at every occurrence: the
values substituted at repeated occurrences are always equal. -/
theorem C5_repeated_slot_forced_equal (stream : ℕ → ℕ) (p : ℕ) :
    ∃ v, v ∈ ["2".data, "3".data, "5".data] ∧
      fill_template "{k} and {k}".data ⟨stream, p⟩ =
        .ok (v ++ " and ".data ++ v, ⟨stream, p + 2⟩) :=
  ⟨_, poolK_getD_mem _ (Nat.mod_lt _ (by omega)), fillKK stream p⟩

/-- C5 counterexample: the claim that for some random source fill_template
substitutes two different pool values at the two occurrences of the repeated
slot k is false — no oracle produces an output whose two occurrences carry
distinct pool values. -/
theorem C5_counterexample :
    ¬ ∃ (stream : ℕ → ℕ) (p : ℕ) (v₁ v₂ : List Char) (rng' : Rng),
      v₁ ∈ ["2".data, "3".data, "5".data] ∧
      v₂ ∈ ["2".data, "3".data, "5".data] ∧ v₁ ≠ v₂ ∧
      fill_template "{k} and {k}".data ⟨stream, p⟩ =
        .ok (v₁ ++ " and ".data ++ v₂, rng') := by
  rintro ⟨stream, p, v₁, v₂, rng', h₁, h₂, hne, heq⟩
  rw [fillKK] at heq
  rw [Except.ok.injEq, Prod.mk.injEq] at heq
  obtain ⟨heq1, -⟩ := heq
  have hlen : ∀ x ∈ ["2".data, "3".data, "5".data], x.length = 1 := by decide
  have hw := poolK_getD_mem (stream (p + 1) % 3) (Nat.mod_lt _ (by omega))
  rw [List.append_assoc, List.append_assoc] at heq1
  have hlw : (["2".data, "3".data, "5".data].getD (stream (p + 1) % 3) []).length
      = v₁.length := by
    rw [hlen _ hw, hlen _ h₁]
  obtain ⟨hv1, hrest⟩ := List.append_inj heq1 hlw
  have hv2 := List.append_cancel_left hrest
  exact hne (by rw [← hv1, ← hv2])

/-- C6: fill_template fails fast on a placeholder missing from the
vocabulary store — the value-drawing loop runs over every slot occurrence
before any substitution, so for every template the result is the KeyError
message naming the offending template (the template is a suffix of the
message) and never a partially substituted .ok value.  On templates whose
placeholders all resolve and whose braces are exactly plain SLOT_PATTERN
fields (the formatOK class on which the str.format model is exact, holding
of every repository template), it returns a fully substituted .ok text.
Outside that class str.format itself raises (for example ValueError on an
unterminated field), matching the claim's either-substituted-or-raises
disjunction. -/
theorem C6_missing_slot_fail_fast (template : List Char) (rng : Rng) :
    ((∃ s ∈ extract_slots template, lookupSlot s = none) →
      ∃ s, s ∈ extract_slots template ∧ lookupSlot s = none ∧
        fill_template template rng = .error (missingSlotMsg s template) ∧
        template <:+ missingSlotMsg s template) ∧
    ((∀ s ∈ extract_slots template, (lookupSlot s).isSome) →
      formatOK template = true →
      ∃ out rng', fill_template template rng = .ok (out, rng')) := by
  constructor
  · intro h
    obtain ⟨s, hs, hn, heq⟩ := fill_template_missing template rng h
    refine ⟨s, hs, hn, heq, ?_⟩
    exact ⟨"Slot '".data ++ s ++ "' not found in SLOTS. Template: ".data,
      by simp [missingSlotMsg, List.append_assoc]⟩
  · intro h hwf
    obtain ⟨out, ho⟩ := fill_template_ok template rng.stream rng.pos h hwf
    exact ⟨out, ⟨rng.stream, rng.pos + (extract_slots template).length⟩, ho⟩

/-- Witness for C6: a template naming a slot that is not in SLOTS fails with
the message naming the template, and a repository template with resolvable
slots and plain-field braces fills successfully. -/
theorem C6_witness :
    (∃ s, s ∈ extract_slots "Hi {nope} x".data ∧ lookupSlot s = none ∧
      fill_template "Hi {nope} x".data ⟨fun i => i, 0⟩ =
        .error (missingSlotMsg s "Hi {nope} x".data) ∧
      "Hi {nope} x".data <:+ missingSlotMsg s "Hi {nope} x".data) ∧
    (∃ out rng', fill_template "What is {concept}?".data ⟨fun i => i, 0⟩ =
      .ok (out, rng')) :=
  ⟨(C6_missing_slot_fail_fast "Hi {nope} x".data ⟨fun i => i, 0⟩).1 (by decide),
   (C6_missing_slot_fail_fast "What is {concept}?".data ⟨fun i => i, 0⟩).2
     (by decide) (by decide)⟩

/- ---------------- C7: template identity ---------------- -/

lemma parseNat_append (xs : List Char) (d : Char) :
    parseNat (xs ++ [d]) = parseNat xs * 10 + (d.toNat - 48) := by
  simp [parseNat, List.foldl_append]

lemma digitChar_toNat (n : ℕ) (h : n < 10) : (Nat.digitChar n).toNat - 48 = n := by
  interval_cases n <;> decide

lemma parseNat_natReprAux : ∀ (fuel n : ℕ), n < fuel →
    parseNat (natReprAux fuel n) = n := by
  intro fuel
  induction fuel with
  | zero => intro n h; omega
  | succ fuel ih =>
    intro n h
    by_cases h10 : n < 10
    · rw [natReprAux, if_pos h10]
      show parseNat [Nat.digitChar n] = n
      have : parseNat [Nat.digitChar n] = 0 * 10 + ((Nat.digitChar n).toNat - 48) := rfl
      rw [this, digitChar_toNat n h10]
      omega
    · rw [natReprAux, if_neg h10, parseNat_append,
        ih (n / 10) (by omega), digitChar_toNat _ (Nat.mod_lt _ (by omega))]
      omega

lemma natRepr_inj {a b : ℕ} (h : natRepr a = natRepr b) : a = b := by
  have ha := parseNat_natReprAux (a + 1) a (by omega)
  have hb := parseNat_natReprAux (b + 1) b (by omega)
  rw [natRepr] at h
  rw [h, natRepr] at ha
  rw [hb] at ha
  omega

lemma natReprAux_no_bar : ∀ (fuel n : ℕ), '|' ∉ natReprAux fuel n := by
  intro fuel
  induction fuel with
  | zero => intro n h; simp [natReprAux] at h
  | succ fuel ih =>
    intro n
    by_cases h10 : n < 10
    · rw [natReprAux, if_pos h10]
      have key : ∀ m, m < 10 → '|' ∉ [Nat.digitChar m] := by decide
      exact key n h10
    · rw [natReprAux, if_neg h10]
      intro hmem
      rcases List.mem_append.1 hmem with h1 | h1
      · exact ih (n / 10) h1
      · rw [List.mem_singleton] at h1
        have key : ∀ m, m < 10 → Nat.digitChar m ≠ '|' := by decide
        exact key (n % 10) (Nat.mod_lt _ (by omega)) h1.symm

lemma natRepr_no_bar (n : ℕ) : '|' ∉ natRepr n := natReprAux_no_bar (n + 1) n

lemma sep_split : ∀ {a a' r r' : List Char}, '|' ∉ a → '|' ∉ a' →
    a ++ '|' :: '|' :: r = a' ++ '|' :: '|' :: r' → a = a' ∧ r = r' := by
  intro a
  induction a with
  | nil =>
    intro a' r r' _ ha' h
    cases a' with
    | nil => simpa using h
    | cons c as' =>
      simp only [List.nil_append, List.cons_append, List.cons.injEq] at h
      obtain ⟨hc, -⟩ := h
      exact absurd (hc ▸ List.mem_cons_self c as') ha'
  | cons c as ih =>
    intro a' r r' ha ha' h
    cases a' with
    | nil =>
      simp only [List.cons_append, List.nil_append, List.cons.injEq] at h
      obtain ⟨hc, -⟩ := h
      exact absurd (hc ▸ List.mem_cons_self c as) ha
    | cons c' as' =>
      simp only [List.cons_append, List.cons.injEq] at h
      obtain ⟨rfl, h2⟩ := h
      obtain ⟨h3, h4⟩ := ih (fun hm => ha (List.mem_cons_of_mem _ hm))
        (fun hm => ha' (List.mem_cons_of_mem _ hm)) h2
      exact ⟨by rw [h3], h4⟩

lemma payloadOf_inj {i g t i' g' t' : List Char} {n n' : ℕ}
    (hi : '|' ∉ i) (hg : '|' ∉ g) (hi' : '|' ∉ i') (hg' : '|' ∉ g')
    (h : payloadOf i g n t = payloadOf i' g' n' t') :
    i = i' ∧ g = g' ∧ n = n' ∧ t = t' := by
  unfold payloadOf at h
  obtain ⟨rfl, h2⟩ := sep_split hi hi' h
  obtain ⟨rfl, h3⟩ := sep_split hg hg' h2
  obtain ⟨hn, rfl⟩ := sep_split (natRepr_no_bar n) (natRepr_no_bar n') h3
  exact ⟨rfl, rfl, natRepr_inj hn, rfl⟩

lemma sha1hex_length (s : List Char) : (sha1hex s).length = 40 := by
  simp [sha1hex]

/-- C7 (amended): stable_template_id is a pure deterministic function of
(intent, generator, index, template text) — identical inputs yield identical
ids — and its value is the constant prefix "tpl_" followed by the first 8
characters of the digest of the payload joining the four fields with "||",
a string of fixed length 12.  The joined payload is injective on fields in
which intent and generator contain no '|' character — which holds for every
label of the locked taxonomy — but not on arbitrary fields (see the
counterexample), so the amendment restricts the injectivity statement to
'|'-free intent and generator labels. -/
theorem C7_template_id (i g t i' g' t' : List Char) (n n' : ℕ) :
    (i = i' → g = g' → n = n' → t = t' →
      stable_template_id i g n t = stable_template_id i' g' n' t') ∧
    stable_template_id i g n t =
      "tpl_".data ++ (sha1hex (payloadOf i g n t)).take 8 ∧
    (stable_template_id i g n t).length = 12 ∧
    (∀ x ∈ INTENTS, '|' ∉ x) ∧ (∀ x ∈ GENERATORS, '|' ∉ x) ∧
    ('|' ∉ i → '|' ∉ g → '|' ∉ i' → '|' ∉ g' →
      payloadOf i g n t = payloadOf i' g' n' t' →
      i = i' ∧ g = g' ∧ n = n' ∧ t = t') := by
  refine ⟨?_, rfl, ?_, by decide, by decide, payloadOf_inj⟩
  · intro h1 h2 h3 h4
    rw [h1, h2, h3, h4]
  · rw [stable_template_id, List.length_append, List.length_take,
      sha1hex_length]
    rfl

/-- C7 counterexample: the payload encoding is not injective on arbitrary
inputs — two distinct (intent, generator) pairs whose fields contain the
separator produce the same payload, and hence the same template id. -/
theorem C7_counterexample :
    payloadOf "a||b".data "c".data 0 "t".data =
      payloadOf "a".data "b||c".data 0 "t".data ∧
    ("a||b".data, "c".data) ≠ ("a".data, "b||c".data) ∧
    stable_template_id "a||b".data "c".data 0 "t".data =
      stable_template_id "a".data "b||c".data 0 "t".data := by
  refine ⟨by decide, by decide, by decide⟩

/-- Witness for C7 on the concrete math/direct template of the repository:
all hypotheses of the amended statement are discharged at this input. -/
theorem C7_witness :
    (stable_template_id "math".data "direct".data 0 "Compute {expr}.".data =
      stable_template_id "math".data "direct".data 0 "Compute {expr}.".data) ∧
    ("math".data = "math".data ∧ "direct".data = "direct".data ∧
      (0 : ℕ) = 0 ∧ "Compute {expr}.".data = "Compute {expr}.".data) := by
  constructor
  · exact (C7_template_id "math".data "direct".data "Compute {expr}.".data
      "math".data "direct".data "Compute {expr}.".data 0 0).1 rfl rfl rfl rfl
  · exact (C7_template_id "math".data "direct".data "Compute {expr}.".data
      "math".data "direct".data "Compute {expr}.".data 0 0).2.2.2.2.2
      (by decide) (by decide) (by decide) (by decide) rfl

/- ---------------- C9: constraint phrase ---------------- -/

lemma constraintPhrases_getD_mem (i : ℕ) (h : i < 7) :
    constraintPhrases.getD i [] ∈ constraintPhrases := by
  have key : ∀ j, j < 7 → constraintPhrases.getD j [] ∈ constraintPhrases := by
    decide
  exact key i h

/-- C9 (amended): _inject_constraint_phrase draws one phrase of the fixed
set; it returns the text unchanged when the lowered text contains "keep it"
or "final answer" — this substring test is the only duplication guard —
otherwise it inserts the drawn phrase before a trailing question mark when
the text ends with '?', and otherwise appends it in parentheses.  Phrases
other than the two guarded substrings are not protected: a clause already
present in the text can be emitted again (see the counterexample). -/
theorem C9_constraint_phrase_cases (text : List Char) (rng : Rng) :
    (((containsSeq "keep it".data (lowerStr text) ||
        containsSeq "final answer".data (lowerStr text)) = true →
      (_inject_constraint_phrase text rng).1 = text) ∧
    ((containsSeq "keep it".data (lowerStr text) ||
        containsSeq "final answer".data (lowerStr text)) = false →
      endsWithCh '?' text = true →
      ∃ ph ∈ constraintPhrases, (_inject_constraint_phrase text rng).1 =
        text.dropLast ++ ", ".data ++ ph ++ ['?']) ∧
    ((containsSeq "keep it".data (lowerStr text) ||
        containsSeq "final answer".data (lowerStr text)) = false →
      endsWithCh '?' text = false →
      ∃ ph ∈ constraintPhrases, (_inject_constraint_phrase text rng).1 =
        text ++ " (".data ++ ph ++ [')'])) := by
  have hmem : constraintPhrases.getD (rng.stream rng.pos % 7) [] ∈
      constraintPhrases :=
    constraintPhrases_getD_mem _ (Nat.mod_lt _ (by omega))
  refine ⟨?_, ?_, ?_⟩
  · intro hguard
    simp only [_inject_constraint_phrase, choiceIdx, Rng.next, hguard, if_true]
  · intro hguard hq
    refine ⟨constraintPhrases.getD (rng.stream rng.pos % 7) [], hmem, ?_⟩
    simp only [_inject_constraint_phrase, choiceIdx, Rng.next, hguard,
      Bool.false_eq_true, if_false, hq, if_true]
    simp [List.append_assoc]
    rfl
  · intro hguard hq
    refine ⟨constraintPhrases.getD (rng.stream rng.pos % 7) [], hmem, ?_⟩
    simp only [_inject_constraint_phrase, choiceIdx, Rng.next, hguard,
      Bool.false_eq_true, if_false, hq]
    simp [List.append_assoc]
    rfl

/-- C9 counterexample: on a text already containing the constraint clause
"briefly", the oracle drawing "briefly" produces an output containing that
clause twice; the guard only protects the substrings "keep it" and
"final answer", refuting the claim that the same constraint clause never
appears twice. -/
theorem C9_counterexample :
    (_inject_constraint_phrase "explain PCA briefly".data ⟨fun _ => 0, 0⟩).1 =
      "explain PCA briefly (briefly)".data ∧
    countOccs "briefly".data
      (_inject_constraint_phrase "explain PCA briefly".data ⟨fun _ => 0, 0⟩).1 = 2 := by
  refine ⟨by decide, by decide⟩

/-- Witness for C9: each of the three guarded cases of the amended statement
exercised at a concrete text and oracle. -/
theorem C9_witness :
    (_inject_constraint_phrase "Keep it short please".data ⟨fun _ => 0, 0⟩).1 =
      "Keep it short please".data ∧
    (∃ ph ∈ constraintPhrases,
      (_inject_constraint_phrase "What is PCA?".data ⟨fun _ => 1, 0⟩).1 =
        "What is PCA?".data.dropLast ++ ", ".data ++ ph ++ ['?']) ∧
    (∃ ph ∈ constraintPhrases,
      (_inject_constraint_phrase "Explain PCA".data ⟨fun _ => 2, 0⟩).1 =
        "Explain PCA".data ++ " (".data ++ ph ++ [')']) := by
  refine ⟨?_, ?_, ?_⟩
  · exact (C9_constraint_phrase_cases "Keep it short please".data
      ⟨fun _ => 0, 0⟩).1 (by decide)
  · exact (C9_constraint_phrase_cases "What is PCA?".data
      ⟨fun _ => 1, 0⟩).2.1 (by decide) (by decide)
  · exact (C9_constraint_phrase_cases "Explain PCA".data
      ⟨fun _ => 2, 0⟩).2.2 (by decide) (by decide)
